import Mathlib

/-!
Shallow embedding of the four job-board scraper scripts
(hays_extract.py, job_extract.py, judge_extract.py, yoh_extract.py).

Conventions of the embedding:
* A Python `datetime.datetime` is a `PyDatetime`: the instant in
  milliseconds since the Unix epoch plus a flag recording whether the
  value is timezone-aware (`tzinfo is not None`).  Aware datetimes
  compare by instant, i.e. by `epochMs`.
* Python standard-library parsers (`datetime.fromisoformat`,
  `datetime.strptime`) are taken as parameters of type
  `String → Option PyDatetime`, `none` standing for a raised
  `ValueError`.  Likewise `strftime` rendering is a parameter
  `PyDatetime → String`.
* A page fetch is modelled by its decoded response; an element `none`
  in a response list stands for a transport-level failure
  (`urllib.error.URLError`) raised by that fetch.  A propagating
  exception is `Except.error`.
* Each script's `main` returns the files it writes: the text file path
  and content, and the spreadsheet path and its rows.
-/

namespace GitOfficeWork

/-- Model of a Python `datetime.datetime`: the instant as milliseconds since
the Unix epoch, plus whether the value is timezone-aware. -/
structure PyDatetime where
  epochMs : Int
  tzAware : Bool
deriving DecidableEq, Repr

/-- `astimezone(dt.timezone.utc)` on an aware datetime: the instant is
unchanged and the result is aware. -/
def astimezoneUtc (d : PyDatetime) : PyDatetime :=
  { d with tzAware := true }

/-- `sep.join(filter(None, parts))`: drop empty strings, join with `sep`. -/
def pyJoin (sep : String) (parts : List String) : String :=
  String.intercalate sep (parts.filter (fun s => s ≠ ""))

/-- The files one script run writes: text file path and content, spreadsheet
path and rows (header row first). -/
structure RunOutput where
  txtPath : String
  txtContent : String
  xlsxPath : String
  xlsxRows : List (List String)
deriving DecidableEq, Repr

/-- The sentinel written when no postings qualify. -/
def sentinel : String := "No jobs found in the last 24 hours."

namespace Hays

/-- `parse_posted_date` from hays_extract.py: empty/absent input gives
`None`; otherwise parse ISO-8601 after replacing a `Z` suffix, and force
the result to be timezone-aware. -/
def parse_posted_date (iso : String → Option PyDatetime)
    (raw : Option String) : Option PyDatetime :=
  match raw with
  | none => none
  | some s =>
    if s = "" then none
    else
      match iso (s.replace "Z" "+00:00") with
      | none => none
      | some parsed =>
        some (if parsed.tzAware then parsed else { parsed with tzAware := true })

/-- One record of the `opportunities` array of a fetched page.  The
`location` field stands for `format_locations(job.get("Locations"))`,
abstracted as the already-formatted string. -/
structure Opportunity where
  postedDate : Option String
  id : String
  title : String
  category : String
  fullTime : Bool
  location : String
  requisition : String
deriving DecidableEq, Repr

/-- The dict appended to `recent` for a qualifying record. -/
structure Job where
  id : String
  title : String
  category : String
  fullTime : Bool
  location : String
  posted : PyDatetime
  requisition : String
  url : String
deriving DecidableEq, Repr

def BASE_URL : String :=
  "https://recruiting.ultipro.com/HAY1004HAUS/JobBoard/bebb31cb-327e-46b6-80a7-e0033ffa4653"

def mkJob (o : Opportunity) (posted : PyDatetime) : Job :=
  { id := o.id, title := o.title.trim, category := o.category.trim,
    fullTime := o.fullTime, location := o.location, posted := posted,
    requisition := o.requisition,
    url := BASE_URL ++ "/OpportunityDetail?opportunityId=" ++ o.id }

/-- One decoded `LoadSearchResults` response. -/
structure Page where
  opportunities : List Opportunity
  totalCount : Option Int
deriving DecidableEq, Repr

/-- The record filter inside `collect_recent_jobs`: a record is appended iff
its posted date parses and is not before the cutoff. -/
def filterPage (iso : String → Option PyDatetime) (cutoff : PyDatetime)
    (opps : List Opportunity) : List Job :=
  opps.filterMap (fun o =>
    match parse_posted_date iso o.postedDate with
    | none => none
    | some p => if p.epochMs < cutoff.epochMs then none else some (mkJob o p))

/-- The `oldest` scan of `collect_recent_jobs`: walk the page in reverse and
keep the first record whose posted date parses. -/
def oldestOnPage (iso : String → Option PyDatetime)
    (opps : List Opportunity) : Option PyDatetime :=
  opps.reverse.findSome? (fun o => parse_posted_date iso o.postedDate)

/-- The `while True` pagination loop of `collect_recent_jobs`, over the list
of responses the server would give to successive `fetch_page` calls.  State:
`skip`, `total` and the accumulator `recent`.  Returns the collected jobs and
the number of `fetch_page` calls issued. -/
def collectLoop (iso : String → Option PyDatetime) (cutoff : PyDatetime) :
    List (Option Page) → Nat → Option Int → List Job →
    Except String (List Job × Nat)
  | [], _, _, recent => Except.ok (recent, 0)
  | none :: _, _, _, _ => Except.error "URLError"
  | some pg :: rest, skip, total, recent =>
    if pg.opportunities.isEmpty then Except.ok (recent, 1)
    else
      let total := some (total.getD (pg.totalCount.getD 0))
      let recent := recent ++ filterPage iso cutoff pg.opportunities
      let oldest := oldestOnPage iso pg.opportunities
      let skip := skip + 50
      let oldStop : Bool :=
        match oldest with
        | some d => decide (d.epochMs < cutoff.epochMs)
        | none => false
      let totStop : Bool :=
        match total with
        | some t => decide ((skip : Int) ≥ t)
        | none => false
      if oldStop || totStop then Except.ok (recent, 1)
      else
        match collectLoop iso cutoff rest skip total recent with
        | Except.ok (r, n) => Except.ok (r, n + 1)
        | Except.error e => Except.error e

/-- Descending order on the `posted` key, as used by
`recent.sort(key=..., reverse=True)`. -/
def jobLe (a b : Job) : Bool := decide (b.posted.epochMs ≤ a.posted.epochMs)

/-- `collect_recent_jobs` from hays_extract.py: run the pagination loop from
the initial state, then sort newest-first.  Also reports the number of page
fetches issued. -/
def collect_recent_jobs (iso : String → Option PyDatetime) (cutoff : PyDatetime)
    (pages : List (Option Page)) : Except String (List Job × Nat) :=
  (collectLoop iso cutoff pages 0 none []).map
    (fun p => (p.1.mergeSort jobLe, p.2))

/-- `write_text` from hays_extract.py, the `strftime` call abstracted as
`strf`. -/
def write_text (strf : PyDatetime → String) (jobs : List Job) : String :=
  let lines := jobs.map (fun j =>
    let postedStr := strf (astimezoneUtc j.posted)
    let fullTime := if j.fullTime then "Full Time" else "Part Time/Other"
    let summary := pyJoin " | " [j.location, j.category, fullTime]
    j.title ++ " | " ++ summary ++ " | Posted: " ++ postedStr ++ " | " ++ j.url)
  if lines.isEmpty then sentinel else String.intercalate "\n" lines

/-- The rows `write_excel` appends to the sheet (header first). -/
def excelRows (strf : PyDatetime → String) (jobs : List Job) :
    List (List String) :=
  ["Title", "Location", "Category", "Full Time", "Posted (UTC)", "URL",
   "Job ID", "Requisition"] ::
  jobs.map (fun j =>
    [j.title, j.location, j.category, if j.fullTime then "Yes" else "No",
     strf (astimezoneUtc j.posted), j.url, j.id, j.requisition])

/-- `main` from hays_extract.py: collect, then write both output files. -/
def main (iso : String → Option PyDatetime) (strfT strfX : PyDatetime → String)
    (cutoff : PyDatetime) (pages : List (Option Page)) :
    Except String RunOutput :=
  (collect_recent_jobs iso cutoff pages).map (fun p =>
    { txtPath := "hays_jobs_last_24h.txt", txtContent := write_text strfT p.1,
      xlsxPath := "hays_jobs_last_24h.xlsx", xlsxRows := excelRows strfX p.1 })

end Hays

namespace Judge

/-- `parse_opened` from judge_extract.py:
`datetime.fromtimestamp(ts_ms / 1000, tz=timezone.utc)` — the instant at
`ts_ms` milliseconds since the epoch, timezone-aware. -/
def parse_opened (tsMs : Int) : PyDatetime :=
  { epochMs := tsMs, tzAware := true }

/-- One element of the `hits` array.  `opened = none` models a record
without the `"opened"` key, on which the subscript raises `KeyError`. -/
structure Hit where
  opened : Option Int
  jobOrderId : String
  title : String
  location : String
  type : String
  category : String
  salary : String
deriving DecidableEq, Repr

/-- The dict appended to `recent` for a qualifying hit. -/
structure Job where
  id : String
  title : String
  location : String
  type : String
  category : String
  salary : String
  opened : PyDatetime
  url : String
deriving DecidableEq, Repr

def mkJob (h : Hit) (opened : PyDatetime) : Job :=
  { id := h.jobOrderId, title := h.title.trim, location := h.location.trim,
    type := h.type.trim, category := h.category.trim, salary := h.salary.trim,
    opened := opened,
    url := "https://www.judge.com/jobs/details/" ++ h.jobOrderId ++ "/" }

/-- One decoded `jdg_get_jobs` response. -/
structure Page where
  hits : List Hit
  total : Option Nat
  size : Option Nat
deriving DecidableEq, Repr

/-- The per-hit loop of `collect_recent_jobs`: `job["opened"]` raises when
the key is absent, otherwise the hit is appended iff `opened_dt >= cutoff`. -/
def processHits (cutoff : PyDatetime) : List Hit → Except String (List Job)
  | [] => Except.ok []
  | h :: t =>
    match h.opened with
    | none => Except.error "KeyError: opened"
    | some ms =>
      let d := parse_opened ms
      match processHits cutoff t with
      | Except.error e => Except.error e
      | Except.ok rest =>
        Except.ok (if cutoff.epochMs ≤ d.epochMs then mkJob h d :: rest else rest)

/-- `hits[-1]["opened"]`. -/
def lastOpened (hits : List Hit) : Option Int :=
  match hits.getLast? with
  | none => none
  | some h => h.opened

/-- `math.ceil(total / size) if size else 0`. -/
def maxPages (total size : Nat) : Nat :=
  if size = 0 then 0 else (total + size - 1) / size

/-- The `while True` pagination loop of `collect_recent_jobs`, over the list
of responses to successive `fetch_page` calls.  State: the 0-based `page`
counter and the accumulator `recent`.  Returns the collected jobs and the
number of `fetch_page` calls issued. -/
def collectLoop (cutoff : PyDatetime) :
    List (Option Page) → Nat → List Job → Except String (List Job × Nat)
  | [], _, recent => Except.ok (recent, 0)
  | none :: _, _, _ => Except.error "URLError"
  | some pg :: rest, page, recent =>
    if pg.hits.isEmpty then Except.ok (recent, 1)
    else
      match processHits cutoff pg.hits with
      | Except.error e => Except.error e
      | Except.ok newJobs =>
        let recent := recent ++ newJobs
        match lastOpened pg.hits with
        | none => Except.error "KeyError: opened"
        | some ms =>
          let oldest := parse_opened ms
          let mp := maxPages (pg.total.getD 0) (pg.size.getD 20)
          let page := page + 1
          if oldest.epochMs < cutoff.epochMs ∨ (mp ≠ 0 ∧ page ≥ mp) then
            Except.ok (recent, 1)
          else
            match collectLoop cutoff rest page recent with
            | Except.ok (r, n) => Except.ok (r, n + 1)
            | Except.error e => Except.error e

/-- Descending order on the `opened` key, as used by
`recent.sort(key=..., reverse=True)`. -/
def jobLe (a b : Job) : Bool := decide (b.opened.epochMs ≤ a.opened.epochMs)

/-- `collect_recent_jobs` from judge_extract.py: run the pagination loop from
page 0, then sort newest-first.  Also reports the number of page fetches. -/
def collect_recent_jobs (cutoff : PyDatetime) (pages : List (Option Page)) :
    Except String (List Job × Nat) :=
  (collectLoop cutoff pages 0 []).map (fun p => (p.1.mergeSort jobLe, p.2))

/-- `write_text` from judge_extract.py. -/
def write_text (strf : PyDatetime → String) (jobs : List Job) : String :=
  let lines := jobs.map (fun j =>
    let summary := pyJoin " | " [j.location, j.type, j.category]
    j.title ++ " | " ++ summary ++ " | Posted: " ++ strf j.opened ++ " | " ++ j.url)
  if lines.isEmpty then sentinel else String.intercalate "\n" lines

/-- The rows `write_excel` appends to the sheet (header first). -/
def excelRows (strf : PyDatetime → String) (jobs : List Job) :
    List (List String) :=
  ["Title", "Location", "Type", "Category", "Salary", "Posted (UTC)", "URL",
   "Job ID"] ::
  jobs.map (fun j =>
    [j.title, j.location, j.type, j.category, j.salary, strf j.opened,
     j.url, j.id])

/-- `main` from judge_extract.py. -/
def main (strfT strfX : PyDatetime → String) (cutoff : PyDatetime)
    (pages : List (Option Page)) : Except String RunOutput :=
  (collect_recent_jobs cutoff pages).map (fun p =>
    { txtPath := "judge_jobs_last_24h.txt", txtContent := write_text strfT p.1,
      xlsxPath := "judge_jobs_last_24h.xlsx", xlsxRows := excelRows strfX p.1 })

end Judge

namespace InsightGlobal

/-- Longest digit run at the head of a character list (the greedy `\d+`). -/
def takeDigits : List Char → List Char × List Char
  | [] => ([], [])
  | c :: t =>
    if c.isDigit then
      let p := takeDigits t
      (c :: p.1, p.2)
    else ([], c :: t)

/-- `int(...)` on a digit string. -/
def digitsToNat (ds : List Char) : Nat :=
  ds.foldl (fun acc c => acc * 10 + (c.toNat - 48)) 0

/-- Match the pattern at the head of `cs`: a literal slash, `Date`, an open
paren, one or more digits, a close paren and a slash.  Since a close paren is
not a digit, the greedy digit run needs no backtracking. -/
def matchDateAt (cs : List Char) : Option Nat :=
  match cs with
  | '/' :: 'D' :: 'a' :: 't' :: 'e' :: '(' :: rest =>
    let p := takeDigits rest
    match p.1, p.2 with
    | [], _ => none
    | _ :: _, ')' :: '/' :: _ => some (digitsToNat p.1)
    | _ :: _, _ => none
  | _ => none

/-- The leftmost match, as found by a regex search. -/
def searchDateMs : List Char → Option Nat
  | [] => none
  | c :: t =>
    match matchDateAt (c :: t) with
    | some n => some n
    | none => searchDateMs t

/-- `parse_posted_date` from job_extract.py: extract epoch milliseconds from
the wire value and build an aware UTC datetime
(`fromtimestamp(ts_ms / 1000, tz=timezone.utc)`). -/
def parse_posted_date (raw : String) : Option PyDatetime :=
  match searchDateMs raw.data with
  | none => none
  | some ms => some { epochMs := (ms : Int), tzAware := true }

/-- One `(title, href, meta)` tuple yielded by `parse_jobs` (rows whose
embedded JSON failed to decode are already absent). -/
structure Row where
  title : String
  href : String
  postedDateRaw : String
  city : String
  state : String
  jobType : List String
  jobId : String
  salaryLow : String
  salaryHigh : String
deriving DecidableEq, Repr

/-- The dict appended to `recent` for a qualifying row. -/
structure Job where
  title : String
  href : String
  city : String
  state : String
  jobType : String
  posted : PyDatetime
  jobId : String
  salaryLow : String
  salaryHigh : String
deriving DecidableEq, Repr

def mkJob (r : Row) (posted : PyDatetime) : Job :=
  { title := r.title.trim, href := "https://jobs.insightglobal.com" ++ r.href,
    city := r.city, state := r.state,
    jobType := String.intercalate ", " r.jobType, posted := posted,
    jobId := r.jobId, salaryLow := r.salaryLow, salaryHigh := r.salaryHigh }

/-- One fetched results page, as the rows `parse_jobs` yields from it. -/
structure Page where
  rows : List Row
deriving DecidableEq, Repr

/-- The per-row loop of `scrape_recent_jobs`: rows whose date does not parse
or is before the cutoff are skipped; qualifying rows are appended and set
`page_has_newer`. -/
def processRows (cutoff : PyDatetime) : List Row → List Job × Bool
  | [] => ([], false)
  | r :: t =>
    let rest := processRows cutoff t
    match parse_posted_date r.postedDateRaw with
    | none => rest
    | some d =>
      if d.epochMs < cutoff.epochMs then rest
      else (mkJob r d :: rest.1, true)

def MAX_PAGES : Nat := 50

/-- The `for page in range(1, MAX_PAGES + 1)` loop of `scrape_recent_jobs`;
`remaining` counts iterations the range still allows.  Returns the collected
jobs, the number of fetches issued, and whether a network failure was caught
and reported to stderr. -/
def scrapeLoop (cutoff : PyDatetime) :
    Nat → List (Option Page) → List Job → List Job × Nat × Bool
  | 0, _, recent => (recent, 0, false)
  | _ + 1, [], recent => (recent, 0, false)
  | _ + 1, none :: _, recent => (recent, 1, true)
  | n + 1, some pg :: rest, recent =>
    if pg.rows.isEmpty then (recent, 1, false)
    else
      let p := processRows cutoff pg.rows
      let recent := recent ++ p.1
      if p.2 then
        let r := scrapeLoop cutoff n rest recent
        (r.1, r.2.1 + 1, r.2.2)
      else (recent, 1, false)

/-- Descending order on the `posted` key, as used by
`recent.sort(key=..., reverse=True)`. -/
def jobLe (a b : Job) : Bool := decide (b.posted.epochMs ≤ a.posted.epochMs)

/-- `scrape_recent_jobs` from job_extract.py: run the page loop, then sort
newest-first.  Also reports the fetch count and the stderr-report flag. -/
def scrape_recent_jobs (cutoff : PyDatetime) (pages : List (Option Page)) :
    List Job × Nat × Bool :=
  let r := scrapeLoop cutoff MAX_PAGES pages []
  (r.1.mergeSort jobLe, r.2.1, r.2.2)

/-- `write_output` from job_extract.py. -/
def write_output (strf : PyDatetime → String) (jobs : List Job) : String :=
  let lines := jobs.map (fun j =>
    let location := pyJoin ", " [j.city, j.state]
    j.title ++ " | " ++ location ++ " | " ++ j.jobType ++ " | Posted: " ++
      strf (astimezoneUtc j.posted) ++ " | " ++ j.href)
  if lines.isEmpty then sentinel else String.intercalate "\n" lines

/-- The rows `write_excel` appends to the sheet (header first). -/
def excelRows (strf : PyDatetime → String) (jobs : List Job) :
    List (List String) :=
  ["Title", "Location", "Job Type", "Posted (UTC)", "URL", "Job ID",
   "Salary Low", "Salary High"] ::
  jobs.map (fun j =>
    [j.title, pyJoin ", " [j.city, j.state], j.jobType,
     strf (astimezoneUtc j.posted), j.href, j.jobId, j.salaryLow, j.salaryHigh])

/-- `main` from job_extract.py.  Network failures are caught inside the page
loop, so the run always writes both files. -/
def main (strfT strfX : PyDatetime → String) (cutoff : PyDatetime)
    (pages : List (Option Page)) : RunOutput :=
  let jobs := (scrape_recent_jobs cutoff pages).1
  { txtPath := "jobs_last_24h.txt", txtContent := write_output strfT jobs,
    xlsxPath := "jobs_last_24h.xlsx", xlsxRows := excelRows strfX jobs }

end InsightGlobal

namespace Yoh

/-- One element of the fetched jobs array, holding the fields of
`job["data"]` that the script reads.  `none` in an optional field models an
absent key (the script reads them with `.get`). -/
structure JobRec where
  changedOnUTC : Option String
  postedDate : Option String
  jobName : String
  city : Option String
  state : Option String
  country : Option String
  workType : String
  jobURL : String
  jobID : String
  referenceNumber : String
deriving DecidableEq, Repr

/-- `parse_timestamp` from yoh_extract.py: prefer `changedOnUTC` (ISO,
forced aware), fall through to `postedDate` parsed with
`strptime("%d-%m-%Y")` and stamped UTC; `none` when both fail. -/
def parse_timestamp (iso strp : String → Option PyDatetime)
    (j : JobRec) : Option PyDatetime :=
  let ts := j.changedOnUTC.getD ""
  let fromIso : Option PyDatetime :=
    if ts = "" then none
    else
      match iso (ts.replace "Z" "+00:00") with
      | none => none
      | some d => some (if d.tzAware then d else { d with tzAware := true })
  match fromIso with
  | some d => some d
  | none =>
    let posted := j.postedDate.getD ""
    if posted = "" then none
    else
      match strp posted with
      | none => none
      | some d => some { d with tzAware := true }

/-- The filter in `main`: keep a record iff its timestamp parses and is at or
after the cutoff (`if ts and ts >= cutoff`). -/
def collectRecent (iso strp : String → Option PyDatetime)
    (cutoff : PyDatetime) (allJobs : List JobRec) : List JobRec :=
  allJobs.filter (fun j =>
    match parse_timestamp iso strp j with
    | none => false
    | some t => decide (cutoff.epochMs ≤ t.epochMs))

/-- `datetime.min.replace(tzinfo=timezone.utc)`: year 1, as epoch ms. -/
def dtMinUtc : PyDatetime := { epochMs := -62135596800000, tzAware := true }

/-- The sort key of `main`: `parse_timestamp(j) or datetime.min(utc)`. -/
def sortKey (iso strp : String → Option PyDatetime) (j : JobRec) : Int :=
  match parse_timestamp iso strp j with
  | some d => d.epochMs
  | none => dtMinUtc.epochMs

/-- Descending order on the sort key, as used by
`recent.sort(key=..., reverse=True)`. -/
def jobLe (iso strp : String → Option PyDatetime) (a b : JobRec) : Bool :=
  decide (sortKey iso strp b ≤ sortKey iso strp a)

/-- `", ".join(part for part in (city, state, country) if part)`. -/
def locationOf (j : JobRec) : String :=
  pyJoin ", " [j.city.getD "", j.state.getD "", j.country.getD ""]

/-- `write_text` from yoh_extract.py: re-parses each record's timestamp and
renders an empty string when it does not resolve. -/
def write_text (iso strp : String → Option PyDatetime)
    (strf : PyDatetime → String) (jobs : List JobRec) : String :=
  let lines := jobs.map (fun j =>
    let postedStr :=
      match parse_timestamp iso strp j with
      | some d => strf (astimezoneUtc d)
      | none => ""
    j.jobName ++ " | " ++ locationOf j ++ " | " ++ j.workType ++
      " | Posted: " ++ postedStr ++ " | " ++ j.jobURL)
  if lines.isEmpty then sentinel else String.intercalate "\n" lines

/-- The rows `write_excel` appends to the sheet (header first). -/
def excelRows (iso strp : String → Option PyDatetime)
    (strf : PyDatetime → String) (jobs : List JobRec) : List (List String) :=
  ["Title", "Location", "Work Type", "Posted (UTC)", "URL", "Job ID",
   "Reference"] ::
  jobs.map (fun j =>
    let postedStr :=
      match parse_timestamp iso strp j with
      | some d => strf (astimezoneUtc d)
      | none => ""
    [j.jobName, locationOf j, j.workType, postedStr, j.jobURL, j.jobID,
     j.referenceNumber])

/-- `main` from yoh_extract.py: a single fetch (`none` models a raised
`URLError`, which propagates), filter, sort newest-first, write both files. -/
def main (iso strp : String → Option PyDatetime)
    (strfT strfX : PyDatetime → String) (cutoff : PyDatetime)
    (resp : Option (List JobRec)) : Except String RunOutput :=
  match resp with
  | none => Except.error "URLError"
  | some allJobs =>
    let recent :=
      (collectRecent iso strp cutoff allJobs).mergeSort (jobLe iso strp)
    Except.ok
      { txtPath := "yoh_jobs_last_24h.txt",
        txtContent := write_text iso strp strfT recent,
        xlsxPath := "yoh_jobs_last_24h.xlsx",
        xlsxRows := excelRows iso strp strfX recent }

end Yoh

/-! Concrete sample inputs, used to exercise the definitions. -/

/-- A library ISO parser that accepts everything as the aware instant 1000ms. -/
def isoConst : String → Option PyDatetime :=
  fun _ => some { epochMs := 1000, tzAware := true }

/-- A library parser that rejects everything. -/
def isoNone : String → Option PyDatetime := fun _ => none

/-- A library `strptime` that accepts everything as a naive instant. -/
def strpConst : String → Option PyDatetime :=
  fun _ => some { epochMs := 500, tzAware := false }

/-- A constant `strftime` renderer. -/
def strfConst : PyDatetime → String := fun _ => "TS"

/-- A cutoff below the sample instants. -/
def cutoff0 : PyDatetime := { epochMs := 0, tzAware := true }

/-- A cutoff above the sample instants. -/
def cutoffHigh : PyDatetime := { epochMs := 2000, tzAware := true }

def oppNew : Hays.Opportunity :=
  { postedDate := some "x", id := "1", title := "T", category := "C",
    fullTime := true, location := "L", requisition := "R" }

def oppBad : Hays.Opportunity :=
  { postedDate := none, id := "2", title := "U", category := "C",
    fullTime := false, location := "L", requisition := "R" }

def hitNew : Judge.Hit :=
  { opened := some 1000, jobOrderId := "1", title := "T", location := "L",
    type := "F", category := "C", salary := "S" }

def hitNoOpened : Judge.Hit :=
  { opened := none, jobOrderId := "2", title := "U", location := "L",
    type := "F", category := "C", salary := "S" }

def hitOld : Judge.Hit :=
  { opened := some (-5), jobOrderId := "3", title := "V", location := "L",
    type := "F", category := "C", salary := "S" }

/-- A Judge response of one always-new hit whose totals report `N` pages of
size one. -/
def judgePageN (N : Nat) : Judge.Page :=
  { hits := [hitNew], total := some N, size := some 1 }

def rowNew : InsightGlobal.Row :=
  { title := "T", href := "/j", postedDateRaw := "/Date(1000)/", city := "C",
    state := "S", jobType := ["Full"], jobId := "1", salaryLow := "",
    salaryHigh := "" }

def rowBad : InsightGlobal.Row :=
  { title := "U", href := "/k", postedDateRaw := "nope", city := "C",
    state := "S", jobType := [], jobId := "2", salaryLow := "",
    salaryHigh := "" }

def yrecNew : Yoh.JobRec :=
  { changedOnUTC := some "x", postedDate := none, jobName := "N",
    city := some "C", state := none, country := none, workType := "W",
    jobURL := "U", jobID := "1", referenceNumber := "Ref" }

def yrecBad : Yoh.JobRec :=
  { changedOnUTC := none, postedDate := none, jobName := "M",
    city := none, state := none, country := none, workType := "W",
    jobURL := "U", jobID := "2", referenceNumber := "Ref" }

/-! Qualification predicates: a fetched record qualifies when its posted
timestamp resolves and is at or after the cutoff.  These restate the filter
conditions of the four scripts as record predicates. -/

/-- A Hays record qualifies: `parse_posted_date` succeeds and the result is
not before the cutoff. -/
def Hays.qualifies (iso : String → Option PyDatetime) (cutoff : PyDatetime)
    (o : Hays.Opportunity) : Bool :=
  match Hays.parse_posted_date iso o.postedDate with
  | some p => decide (cutoff.epochMs ≤ p.epochMs)
  | none => false

/-- A Judge hit qualifies: the `opened` field is present and at or after the
cutoff. -/
def Judge.qualifies (cutoff : PyDatetime) (h : Judge.Hit) : Bool :=
  match h.opened with
  | some ms => decide (cutoff.epochMs ≤ ms)
  | none => false

/-- An Insight Global row qualifies: its wire date parses and is not before
the cutoff. -/
def InsightGlobal.qualifies (cutoff : PyDatetime)
    (r : InsightGlobal.Row) : Bool :=
  match InsightGlobal.parse_posted_date r.postedDateRaw with
  | some d => decide (cutoff.epochMs ≤ d.epochMs)
  | none => false

/-- A Yoh record qualifies: its timestamp resolves and is at or after the
cutoff. -/
def Yoh.qualifies (iso strp : String → Option PyDatetime)
    (cutoff : PyDatetime) (j : Yoh.JobRec) : Bool :=
  match Yoh.parse_timestamp iso strp j with
  | some t => decide (cutoff.epochMs ≤ t.epochMs)
  | none => false

/-! Helper lemmas. -/

/-- Sorting with `reverse=True` on an integer key yields a list that is
pairwise descending in that key. -/
lemma pairwise_mergeSort_key {α : Type} (key : α → Int) (l : List α) :
    (l.mergeSort (fun a b => decide (key b ≤ key a))).Pairwise
      (fun a b => key b ≤ key a) := by
  have h := @List.sorted_mergeSort α (fun a b => decide (key b ≤ key a))
    (fun a b c hab hbc => by
      simp only [decide_eq_true_eq] at hab hbc ⊢; omega)
    (fun a b => by
      simp only [Bool.or_eq_true, decide_eq_true_eq]; omega) l
  exact h.imp (fun hab => by simpa using hab)

/-- Every job the Hays record filter keeps is at or after the cutoff. -/
lemma hays_mem_filterPage {iso : String → Option PyDatetime}
    {cutoff : PyDatetime} {opps : List Hays.Opportunity} {j : Hays.Job}
    (h : j ∈ Hays.filterPage iso cutoff opps) :
    cutoff.epochMs ≤ j.posted.epochMs := by
  unfold Hays.filterPage at h
  rw [List.mem_filterMap] at h
  obtain ⟨o, -, ho⟩ := h
  split at ho
  · exact absurd ho (by simp)
  · rename_i p hp
    split at ho
    · exact absurd ho (by simp)
    · rename_i hc
      cases ho
      show cutoff.epochMs ≤ p.epochMs
      omega

/-- Loop invariant for Hays pagination: every collected job either was in the
accumulator already or is at or after the cutoff. -/
lemma hays_collectLoop_mem {iso : String → Option PyDatetime}
    {cutoff : PyDatetime} :
    ∀ (pages : List (Option Hays.Page)) (skip : Nat) (total : Option Int)
      (recent r : List Hays.Job) (n : Nat),
      Hays.collectLoop iso cutoff pages skip total recent =
        Except.ok (r, n) →
      ∀ j ∈ r, j ∈ recent ∨ cutoff.epochMs ≤ j.posted.epochMs := by
  intro pages
  induction pages with
  | nil =>
    intro skip total recent r n h j hj
    simp only [Hays.collectLoop, Except.ok.injEq, Prod.mk.injEq] at h
    exact Or.inl (h.1 ▸ hj)
  | cons page rest ih =>
    intro skip total recent r n h j hj
    match page with
    | none => simp [Hays.collectLoop] at h
    | some pg =>
      rw [Hays.collectLoop] at h
      split at h
      · simp only [Except.ok.injEq, Prod.mk.injEq] at h
        exact Or.inl (h.1 ▸ hj)
      · try dsimp only at h
        split at h
        · simp only [Except.ok.injEq, Prod.mk.injEq] at h
          rcases List.mem_append.1 (h.1 ▸ hj) with hm | hm
          · exact Or.inl hm
          · exact Or.inr (hays_mem_filterPage hm)
        · split at h
          · rename_i r0 n0 hrec
            simp only [Except.ok.injEq, Prod.mk.injEq] at h
            rcases ih _ _ _ _ _ hrec j (h.1 ▸ hj) with hm | hm
            · rcases List.mem_append.1 hm with hm2 | hm2
              · exact Or.inl hm2
              · exact Or.inr (hays_mem_filterPage hm2)
            · exact Or.inr hm
          · exact absurd h (by simp)

/-- Every job the Judge per-hit loop keeps is at or after the cutoff. -/
lemma judge_processHits_mem {cutoff : PyDatetime} :
    ∀ (hits : List Judge.Hit) (l : List Judge.Job),
      Judge.processHits cutoff hits = Except.ok l →
      ∀ j ∈ l, cutoff.epochMs ≤ j.opened.epochMs := by
  intro hits
  induction hits with
  | nil =>
    intro l h j hj
    simp only [Judge.processHits, Except.ok.injEq] at h
    simp [← h] at hj
  | cons hd tl ih =>
    intro l h j hj
    rw [Judge.processHits] at h
    split at h
    · exact absurd h (by simp)
    · rename_i ms hms
      split at h
      · exact absurd h (by simp)
      · rename_i rest hrest
        simp only [Except.ok.injEq] at h
        subst h
        split at hj
        · rename_i hc
          rcases List.mem_cons.1 hj with rfl | hm
          · simpa [Judge.mkJob, Judge.parse_opened] using hc
          · exact ih rest hrest j hm
        · exact ih rest hrest j hj

/-- Loop invariant for Judge pagination: every collected job either was in
the accumulator already or is at or after the cutoff. -/
lemma judge_collectLoop_mem {cutoff : PyDatetime} :
    ∀ (pages : List (Option Judge.Page)) (page : Nat)
      (recent r : List Judge.Job) (n : Nat),
      Judge.collectLoop cutoff pages page recent = Except.ok (r, n) →
      ∀ j ∈ r, j ∈ recent ∨ cutoff.epochMs ≤ j.opened.epochMs := by
  intro pages
  induction pages with
  | nil =>
    intro page recent r n h j hj
    simp only [Judge.collectLoop, Except.ok.injEq, Prod.mk.injEq] at h
    exact Or.inl (h.1 ▸ hj)
  | cons pgOpt rest ih =>
    intro page recent r n h j hj
    match pgOpt with
    | none => simp [Judge.collectLoop] at h
    | some pg =>
      rw [Judge.collectLoop] at h
      split at h
      · simp only [Except.ok.injEq, Prod.mk.injEq] at h
        exact Or.inl (h.1 ▸ hj)
      · split at h
        · exact absurd h (by simp)
        · rename_i newJobs hnew
          dsimp only at h
          split at h
          · exact absurd h (by simp)
          · split at h
            · simp only [Except.ok.injEq, Prod.mk.injEq] at h
              rcases List.mem_append.1 (h.1 ▸ hj) with hm | hm
              · exact Or.inl hm
              · exact Or.inr (judge_processHits_mem _ _ hnew j hm)
            · split at h
              · rename_i r0 n0 hrec
                simp only [Except.ok.injEq, Prod.mk.injEq] at h
                rcases ih _ _ _ _ hrec j (h.1 ▸ hj) with hm | hm
                · rcases List.mem_append.1 hm with hm2 | hm2
                  · exact Or.inl hm2
                  · exact Or.inr (judge_processHits_mem _ _ hnew j hm2)
                · exact Or.inr hm
              · exact absurd h (by simp)

/-- Every job the Insight Global per-row loop keeps is at or after the
cutoff. -/
lemma ig_processRows_mem {cutoff : PyDatetime} :
    ∀ (rows : List InsightGlobal.Row) (j : InsightGlobal.Job),
      j ∈ (InsightGlobal.processRows cutoff rows).1 →
      cutoff.epochMs ≤ j.posted.epochMs := by
  intro rows
  induction rows with
  | nil => intro j hj; simp [InsightGlobal.processRows] at hj
  | cons hd tl ih =>
    intro j hj
    rw [InsightGlobal.processRows] at hj
    try dsimp only at hj
    split at hj
    · exact ih j hj
    · rename_i d hd2
      split at hj
      · exact ih j hj
      · rename_i hc
        rcases List.mem_cons.1 hj with rfl | hm
        · simpa [InsightGlobal.mkJob] using hc
        · exact ih j hm

/-- Loop invariant for Insight Global pagination: every collected job either
was in the accumulator already or is at or after the cutoff. -/
lemma ig_scrapeLoop_mem {cutoff : PyDatetime} :
    ∀ (pages : List (Option InsightGlobal.Page)) (fuel : Nat)
      (recent : List InsightGlobal.Job) (j : InsightGlobal.Job),
      j ∈ (InsightGlobal.scrapeLoop cutoff fuel pages recent).1 →
      j ∈ recent ∨ cutoff.epochMs ≤ j.posted.epochMs := by
  intro pages
  induction pages with
  | nil =>
    intro fuel recent j hj
    match fuel with
    | 0 => exact Or.inl hj
    | n + 1 => exact Or.inl hj
  | cons pgOpt rest ih =>
    intro fuel recent j hj
    match fuel with
    | 0 => exact Or.inl hj
    | n + 1 =>
      match pgOpt with
      | none => exact Or.inl hj
      | some pg =>
        rw [InsightGlobal.scrapeLoop] at hj
        split at hj
        · exact Or.inl hj
        · dsimp only at hj
          split at hj
          · rcases ih _ _ _ hj with hm | hm
            · rcases List.mem_append.1 hm with hm2 | hm2
              · exact Or.inl hm2
              · exact Or.inr (ig_processRows_mem _ _ hm2)
            · exact Or.inr hm
          · rcases List.mem_append.1 hj with hm | hm
            · exact Or.inl hm
            · exact Or.inr (ig_processRows_mem _ _ hm)

/-- Every record the Yoh filter keeps has a parsing timestamp at or after
the cutoff. -/
lemma yoh_collectRecent_mem {iso strp : String → Option PyDatetime}
    {cutoff : PyDatetime} {allJobs : List Yoh.JobRec} {j : Yoh.JobRec}
    (h : j ∈ Yoh.collectRecent iso strp cutoff allJobs) :
    ∃ t, Yoh.parse_timestamp iso strp j = some t ∧
      cutoff.epochMs ≤ t.epochMs := by
  unfold Yoh.collectRecent at h
  rw [List.mem_filter] at h
  obtain ⟨-, hq⟩ := h
  split at hq
  · cases hq
  · rename_i t ht
    exact ⟨t, ht, by simpa using hq⟩

/-- The Hays record filter keeps exactly the qualifying records. -/
lemma hays_length_filterPage (iso : String → Option PyDatetime)
    (cutoff : PyDatetime) (opps : List Hays.Opportunity) :
    (Hays.filterPage iso cutoff opps).length =
      opps.countP (Hays.qualifies iso cutoff) := by
  unfold Hays.filterPage
  rw [List.length_filterMap_eq_countP]
  apply List.countP_congr
  intro o _
  unfold Hays.qualifies
  cases hp : Hays.parse_posted_date iso o.postedDate with
  | none => simp
  | some p =>
    by_cases hc : p.epochMs < cutoff.epochMs <;> simp [hc] <;> omega

/-- Running the Hays loop on a single page yields exactly the page's
filtered records, with one fetch. -/
lemma hays_collectLoop_single (iso : String → Option PyDatetime)
    (cutoff : PyDatetime) (pg : Hays.Page) :
    Hays.collectLoop iso cutoff [some pg] 0 none [] =
      Except.ok (Hays.filterPage iso cutoff pg.opportunities, 1) := by
  rw [Hays.collectLoop]
  split
  · rename_i hemp
    rw [List.isEmpty_iff] at hemp
    simp [Hays.filterPage, hemp]
  · try dsimp only
    split
    · simp
    · simp [Hays.collectLoop]

/-- The Judge per-hit loop, when it succeeds, keeps exactly the qualifying
hits. -/
lemma judge_processHits_length {cutoff : PyDatetime} :
    ∀ (hits : List Judge.Hit) (l : List Judge.Job),
      Judge.processHits cutoff hits = Except.ok l →
      l.length = hits.countP (Judge.qualifies cutoff) := by
  intro hits
  induction hits with
  | nil =>
    intro l h
    simp only [Judge.processHits, Except.ok.injEq] at h
    simp [← h]
  | cons hd tl ih =>
    intro l h
    rw [Judge.processHits] at h
    split at h
    · exact absurd h (by simp)
    · rename_i ms hms
      split at h
      · exact absurd h (by simp)
      · rename_i rest hrest
        simp only [Except.ok.injEq] at h
        subst h
        have hq : Judge.qualifies cutoff hd = decide (cutoff.epochMs ≤ ms) := by
          unfold Judge.qualifies
          rw [hms]
        rw [List.countP_cons, hq]
        by_cases hcc : cutoff.epochMs ≤ ms
        · simp [Judge.parse_opened, hcc, ih rest hrest]
        · simp [Judge.parse_opened, hcc, ih rest hrest]

/-- The Judge per-hit loop succeeds iff no hit lacks its `opened` field:
success direction. -/
lemma judge_processHits_isOk {cutoff : PyDatetime} :
    ∀ (hits : List Judge.Hit), (∀ h ∈ hits, h.opened.isSome) →
      ∃ l, Judge.processHits cutoff hits = Except.ok l := by
  intro hits
  induction hits with
  | nil => intro _; exact ⟨[], rfl⟩
  | cons hd tl ih =>
    intro hall
    obtain ⟨ms, hms⟩ := Option.isSome_iff_exists.1 (hall hd (by simp))
    obtain ⟨rest, hrest⟩ := ih (fun h hm => hall h (by simp [hm]))
    refine ⟨if cutoff.epochMs ≤ (Judge.parse_opened ms).epochMs then
      Judge.mkJob hd (Judge.parse_opened ms) :: rest else rest, ?_⟩
    rw [Judge.processHits, hms, hrest]

/-- If the Judge per-hit loop succeeds, every hit had its `opened` field. -/
lemma judge_processHits_ok_isSome {cutoff : PyDatetime} :
    ∀ (hits : List Judge.Hit) (l : List Judge.Job),
      Judge.processHits cutoff hits = Except.ok l →
      ∀ h ∈ hits, h.opened.isSome := by
  intro hits
  induction hits with
  | nil => intro l _ h hm; cases hm
  | cons hd tl ih =>
    intro l h x hx
    rw [Judge.processHits] at h
    split at h
    · exact absurd h (by simp)
    · rename_i ms hms
      split at h
      · exact absurd h (by simp)
      · rename_i rest hrest
        rcases List.mem_cons.1 hx with rfl | hm
        · simp [hms]
        · exact ih rest hrest x hm

/-- Running the Judge loop on a single page whose per-hit pass succeeds
yields exactly those hits, with one fetch. -/
lemma judge_collectLoop_single {cutoff : PyDatetime} {pg : Judge.Page}
    {l : List Judge.Job}
    (h : Judge.processHits cutoff pg.hits = Except.ok l) :
    Judge.collectLoop cutoff [some pg] 0 [] = Except.ok (l, 1) := by
  rw [Judge.collectLoop]
  split
  · rename_i hemp
    rw [List.isEmpty_iff] at hemp
    rw [hemp] at h
    simp only [Judge.processHits, Except.ok.injEq] at h
    simp [← h]
  · rename_i hemp
    rw [List.isEmpty_iff] at hemp
    rw [h]
    have hlast : ∃ ms, Judge.lastOpened pg.hits = some ms := by
      obtain ⟨x, hx⟩ := List.getLast?_isSome.2 hemp |> Option.isSome_iff_exists.1
      obtain ⟨ms, hms⟩ := Option.isSome_iff_exists.1
        (judge_processHits_ok_isSome pg.hits l h x
          (List.mem_of_getLast?_eq_some hx))
      exact ⟨ms, by simp [Judge.lastOpened, hx, hms]⟩
    obtain ⟨ms, hms⟩ := hlast
    rw [hms]
    try dsimp only
    split
    · simp
    · simp [Judge.collectLoop]

/-- The Insight Global per-row loop keeps exactly the qualifying rows. -/
lemma ig_processRows_length {cutoff : PyDatetime} :
    ∀ (rows : List InsightGlobal.Row),
      (InsightGlobal.processRows cutoff rows).1.length =
        rows.countP (InsightGlobal.qualifies cutoff) := by
  intro rows
  induction rows with
  | nil => simp [InsightGlobal.processRows]
  | cons hd tl ih =>
    rw [InsightGlobal.processRows, List.countP_cons]
    cases hp : InsightGlobal.parse_posted_date hd.postedDateRaw with
    | none =>
      have hq : InsightGlobal.qualifies cutoff hd = false := by
        unfold InsightGlobal.qualifies
        rw [hp]
      simp [hp, hq, ih]
    | some d =>
      have hq : InsightGlobal.qualifies cutoff hd =
          decide (cutoff.epochMs ≤ d.epochMs) := by
        unfold InsightGlobal.qualifies
        rw [hp]
      by_cases hc : d.epochMs < cutoff.epochMs
      · have hn : ¬ cutoff.epochMs ≤ d.epochMs := by omega
        simp [hp, hq, hc, hn, ih]
      · have hy : cutoff.epochMs ≤ d.epochMs := by omega
        simp [hp, hq, hc, hy, ih]

/-- The Insight Global loop on an exhausted response list stops with the
accumulator. -/
lemma ig_scrapeLoop_nilPages {cutoff : PyDatetime} :
    ∀ (fuel : Nat) (recent : List InsightGlobal.Job),
      InsightGlobal.scrapeLoop cutoff fuel [] recent = (recent, 0, false) := by
  intro fuel recent
  match fuel with
  | 0 => rfl
  | n + 1 => rfl

/-- Running the Insight Global loop on a single page yields exactly the
page's qualifying rows, with one fetch and no failure report. -/
lemma ig_scrapeLoop_single {cutoff : PyDatetime} {pg : InsightGlobal.Page}
    (fuel : Nat) (recent : List InsightGlobal.Job) :
    InsightGlobal.scrapeLoop cutoff (fuel + 1) [some pg] recent =
      (recent ++ (InsightGlobal.processRows cutoff pg.rows).1, 1, false) := by
  rw [InsightGlobal.scrapeLoop]
  split
  · rename_i hemp
    rw [List.isEmpty_iff] at hemp
    simp [InsightGlobal.processRows, hemp]
  · try dsimp only
    split
    · simp [ig_scrapeLoop_nilPages]
    · rfl

/-- The Yoh filter keeps exactly the qualifying records. -/
lemma yoh_collectRecent_length (iso strp : String → Option PyDatetime)
    (cutoff : PyDatetime) (allJobs : List Yoh.JobRec) :
    (Yoh.collectRecent iso strp cutoff allJobs).length =
      allJobs.countP (Yoh.qualifies iso strp cutoff) := by
  unfold Yoh.collectRecent
  rw [← List.countP_eq_length_filter]
  apply List.countP_congr
  intro j _
  unfold Yoh.qualifies
  cases hp : Yoh.parse_timestamp iso strp j <;> simp

/-- When every record on a Hays page is older than the cutoff, the record
filter keeps nothing. -/
lemma hays_filterPage_all_old {iso : String → Option PyDatetime}
    {cutoff : PyDatetime} {opps : List Hays.Opportunity}
    (hall : ∀ o ∈ opps, ∃ d, Hays.parse_posted_date iso o.postedDate = some d ∧
      d.epochMs < cutoff.epochMs) :
    Hays.filterPage iso cutoff opps = [] := by
  unfold Hays.filterPage
  rw [List.filterMap_eq_nil_iff]
  intro o ho
  obtain ⟨d, hd, hlt⟩ := hall o ho
  rw [hd]
  simp [hlt]

/-- When every hit on a Judge page is older than the cutoff, the per-hit
loop keeps nothing. -/
lemma judge_processHits_all_old {cutoff : PyDatetime} :
    ∀ (hits : List Judge.Hit),
      (∀ h ∈ hits, ∃ ms, h.opened = some ms ∧ ms < cutoff.epochMs) →
      Judge.processHits cutoff hits = Except.ok [] := by
  intro hits
  induction hits with
  | nil => intro _; rfl
  | cons hd tl ih =>
    intro hall
    obtain ⟨ms, hms, hlt⟩ := hall hd (by simp)
    rw [Judge.processHits, hms, ih (fun h hm => hall h (by simp [hm]))]
    have : ¬ cutoff.epochMs ≤ (Judge.parse_opened ms).epochMs := by
      simp only [Judge.parse_opened]
      omega
    simp [this]

/-- When every row on an Insight Global page is older than the cutoff, the
per-row loop keeps nothing and reports no newer record. -/
lemma ig_processRows_all_old {cutoff : PyDatetime} :
    ∀ (rows : List InsightGlobal.Row),
      (∀ r ∈ rows, ∃ d, InsightGlobal.parse_posted_date r.postedDateRaw =
        some d ∧ d.epochMs < cutoff.epochMs) →
      InsightGlobal.processRows cutoff rows = ([], false) := by
  intro rows
  induction rows with
  | nil => intro _; rfl
  | cons hd tl ih =>
    intro hall
    obtain ⟨d, hd2, hlt⟩ := hall hd (by simp)
    rw [InsightGlobal.processRows, ih (fun r hm => hall r (by simp [hm])), hd2]
    simp [hlt]

/-- With pages of one always-new record and a server-reported total of `T`,
the Hays loop keeps fetching until `skip` reaches the total: on `m` such
pages with `skip + 50·m = T` it issues exactly `m` fetches. -/
lemma hays_unbounded_aux (T : Int) :
    ∀ (m : Nat), 1 ≤ m → ∀ (skip : Nat) (total? : Option Int)
      (recent : List Hays.Job),
      (skip : Int) + 50 * (m : Int) = total?.getD T →
      ∃ out, Hays.collectLoop isoConst cutoff0
        (List.replicate m
          (some { opportunities := [oppNew], totalCount := some T }))
        skip total? recent = Except.ok (out, m) := by
  intro m
  induction m with
  | zero => intro h; exact absurd h (by decide)
  | succ k ih =>
    intro _ skip total? recent htot
    rw [List.replicate_succ, Hays.collectLoop]
    have hold : Hays.oldestOnPage isoConst [oppNew] =
        some { epochMs := 1000, tzAware := true } := by
      simp [Hays.oldestOnPage, Hays.parse_posted_date, isoConst, oppNew]
    have holdF : decide ((1000 : Int) < cutoff0.epochMs) = false := by decide
    by_cases hk : k = 0
    · subst hk
      by_cases hc : ((skip + 50 : Nat) : Int) ≥ total?.getD T
      · have hdec : decide (((skip + 50 : Nat) : Int) ≥ total?.getD T) =
            true := decide_eq_true hc
        exact ⟨recent ++ Hays.filterPage isoConst cutoff0 [oppNew],
          by simp [hold, holdF, hdec]; intro hcon; simp [Hays.collectLoop]⟩
      · have hdec : decide (((skip + 50 : Nat) : Int) ≥ total?.getD T) =
            false := decide_eq_false hc
        exact ⟨recent ++ Hays.filterPage isoConst cutoff0 [oppNew],
          by simp [hold, holdF, hdec, Hays.collectLoop]⟩
    · have hk1 : 1 ≤ k := by omega
      have hlt : ¬ ((skip + 50 : Nat) : Int) ≥ total?.getD T := by
        push_cast at htot ⊢
        omega
      have hdec : decide (((skip + 50 : Nat) : Int) ≥ total?.getD T) =
          false := decide_eq_false hlt
      obtain ⟨out, hout⟩ := ih hk1 (skip + 50) (some (total?.getD T))
        (recent ++ Hays.filterPage isoConst cutoff0 [oppNew])
        (by simp only [Option.getD_some]; push_cast at htot ⊢; omega)
      refine ⟨out, ?_⟩
      simp [hold, holdF, hdec, hout]
      intro hcon
      exfalso
      push_cast at hlt
      omega

/-- With pages of one always-new hit and a server-reported `total = N`,
`size = 1`, the Judge loop keeps fetching until its page counter reaches
`maxPages = N`: on `m` such pages with `page + m = N` it issues exactly `m`
fetches. -/
lemma judge_unbounded_aux (N : Nat) (hN : N ≠ 0) :
    ∀ (m : Nat), 1 ≤ m → ∀ (page : Nat) (recent : List Judge.Job),
      page + m = N →
      ∃ out, Judge.collectLoop cutoff0
        (List.replicate m (some (judgePageN N)))
        page recent = Except.ok (out, m) := by
  intro m
  induction m with
  | zero => intro h; exact absurd h (by decide)
  | succ k ih =>
    intro _ page recent hpage
    rw [List.replicate_succ, Judge.collectLoop]
    have hproc : Judge.processHits cutoff0 [hitNew] =
        Except.ok [Judge.mkJob hitNew { epochMs := 1000, tzAware := true }] := by
      simp [Judge.processHits, hitNew, Judge.parse_opened, cutoff0]
    have hlast : Judge.lastOpened [hitNew] = some 1000 := rfl
    have hmp : Judge.maxPages N 1 = N := by
      unfold Judge.maxPages
      simp
    have hlt0 : ¬ ((Judge.parse_opened 1000).epochMs < cutoff0.epochMs) := by
      decide
    by_cases hk : k = 0
    · subst hk
      have hge : page + 1 ≥ N := by omega
      exact ⟨recent ++ [Judge.mkJob hitNew { epochMs := 1000, tzAware := true }],
        by simp [judgePageN, hproc, hlast, hmp, hlt0, hN, hge]⟩
    · have hk1 : 1 ≤ k := by omega
      have hnge : ¬ (page + 1 ≥ N) := by omega
      obtain ⟨out, hout⟩ := ih hk1 (page + 1)
        (recent ++ [Judge.mkJob hitNew { epochMs := 1000, tzAware := true }])
        (by omega)
      simp only [judgePageN] at hout
      exact ⟨out, by simp [judgePageN, hproc, hlast, hmp, hlt0, hnge, hout]⟩

/-- The Insight Global loop never issues more fetches than its fuel. -/
lemma ig_scrapeLoop_count_le {cutoff : PyDatetime} :
    ∀ (pages : List (Option InsightGlobal.Page)) (fuel : Nat)
      (recent : List InsightGlobal.Job),
      (InsightGlobal.scrapeLoop cutoff fuel pages recent).2.1 ≤ fuel := by
  intro pages
  induction pages with
  | nil =>
    intro fuel recent
    match fuel with
    | 0 => simp [InsightGlobal.scrapeLoop]
    | n + 1 => simp [InsightGlobal.scrapeLoop]
  | cons pgOpt rest ih =>
    intro fuel recent
    match fuel with
    | 0 => simp [InsightGlobal.scrapeLoop]
    | n + 1 =>
      match pgOpt with
      | none => simp [InsightGlobal.scrapeLoop]
      | some pg =>
        rw [InsightGlobal.scrapeLoop]
        split
        · simp
        · try dsimp only
          split
          · have := ih n (recent ++ (InsightGlobal.processRows cutoff pg.rows).1)
            show (InsightGlobal.scrapeLoop cutoff n rest
              (recent ++ (InsightGlobal.processRows cutoff pg.rows).1)).2.1 + 1 ≤
              n + 1
            omega
          · simp

/-- A Judge page containing any hit without the `opened` key makes the
per-hit loop raise. -/
lemma judge_processHits_error {cutoff : PyDatetime} :
    ∀ (hits : List Judge.Hit), (∃ h ∈ hits, h.opened = none) →
      ∃ e, Judge.processHits cutoff hits = Except.error e := by
  intro hits
  induction hits with
  | nil => rintro ⟨h, hm, -⟩; cases hm
  | cons hd tl ih =>
    rintro ⟨x, hx, hxn⟩
    rcases List.mem_cons.1 hx with rfl | hm
    · rw [Judge.processHits, hxn]
      exact ⟨"KeyError: opened", rfl⟩
    · cases hms : hd.opened with
      | none =>
        rw [Judge.processHits, hms]
        exact ⟨"KeyError: opened", rfl⟩
      | some ms =>
        obtain ⟨e, he⟩ := ih ⟨x, hm, hxn⟩
        rw [Judge.processHits, hms, he]
        exact ⟨e, rfl⟩

/-! Claim theorems. -/

/-- C1: in every run of each of the four scripts, every posting in the final
output set carries a resolvable posted timestamp at or after the cutoff;
postings before the cutoff or with unparsable timestamps never appear.  (For
Hays, Judge and Insight Global the output job's `posted`/`opened` field is by
construction the parsed timestamp; for Yoh, membership implies the record's
timestamp parses and is at or after the cutoff.) -/
theorem C1_output_at_or_after_cutoff :
    (∀ (iso : String → Option PyDatetime) (cutoff : PyDatetime)
       (pages : List (Option Hays.Page)) (out : List Hays.Job) (n : Nat),
      Hays.collect_recent_jobs iso cutoff pages = Except.ok (out, n) →
      ∀ j ∈ out, cutoff.epochMs ≤ j.posted.epochMs) ∧
    (∀ (cutoff : PyDatetime) (pages : List (Option Judge.Page))
       (out : List Judge.Job) (n : Nat),
      Judge.collect_recent_jobs cutoff pages = Except.ok (out, n) →
      ∀ j ∈ out, cutoff.epochMs ≤ j.opened.epochMs) ∧
    (∀ (cutoff : PyDatetime) (pages : List (Option InsightGlobal.Page)),
      ∀ j ∈ (InsightGlobal.scrape_recent_jobs cutoff pages).1,
        cutoff.epochMs ≤ j.posted.epochMs) ∧
    (∀ (iso strp : String → Option PyDatetime) (cutoff : PyDatetime)
       (allJobs : List Yoh.JobRec),
      ∀ j ∈ (Yoh.collectRecent iso strp cutoff allJobs).mergeSort
          (Yoh.jobLe iso strp),
        ∃ t, Yoh.parse_timestamp iso strp j = some t ∧
          cutoff.epochMs ≤ t.epochMs) := by
  refine ⟨?_, ?_, ?_, ?_⟩
  · intro iso cutoff pages out n h j hj
    unfold Hays.collect_recent_jobs at h
    cases hLoop : Hays.collectLoop iso cutoff pages 0 none [] with
    | error e => rw [hLoop] at h; exact absurd h (by simp [Except.map])
    | ok p =>
      rw [hLoop] at h
      simp only [Except.map, Except.ok.injEq, Prod.mk.injEq] at h
      have hj2 : j ∈ p.1 := List.mem_mergeSort.1 (h.1 ▸ hj)
      rcases hays_collectLoop_mem pages 0 none [] p.1 p.2 hLoop j hj2 with
        hm | hm
      · cases hm
      · exact hm
  · intro cutoff pages out n h j hj
    unfold Judge.collect_recent_jobs at h
    cases hLoop : Judge.collectLoop cutoff pages 0 [] with
    | error e => rw [hLoop] at h; exact absurd h (by simp [Except.map])
    | ok p =>
      rw [hLoop] at h
      simp only [Except.map, Except.ok.injEq, Prod.mk.injEq] at h
      have hj2 : j ∈ p.1 := List.mem_mergeSort.1 (h.1 ▸ hj)
      rcases judge_collectLoop_mem pages 0 [] p.1 p.2 hLoop j hj2 with
        hm | hm
      · cases hm
      · exact hm
  · intro cutoff pages j hj
    unfold InsightGlobal.scrape_recent_jobs at hj
    have hj2 := List.mem_mergeSort.1 hj
    rcases ig_scrapeLoop_mem pages InsightGlobal.MAX_PAGES [] j hj2 with
      hm | hm
    · cases hm
    · exact hm
  · intro iso strp cutoff allJobs j hj
    exact yoh_collectRecent_mem (List.mem_mergeSort.1 hj)

/-- C1 witness: each script, run on one concrete page holding one qualifying
record, outputs exactly that record, and the claim applies to it. -/
theorem C1_witness :
    (Hays.collect_recent_jobs isoConst cutoff0
        [some { opportunities := [oppNew], totalCount := some 1 }] =
      Except.ok
        ([Hays.mkJob oppNew { epochMs := 1000, tzAware := true }], 1) ∧
      cutoff0.epochMs ≤
        (Hays.mkJob oppNew
          { epochMs := 1000, tzAware := true }).posted.epochMs) ∧
    (Judge.collect_recent_jobs cutoff0
        [some { hits := [hitNew], total := some 1, size := some 20 }] =
      Except.ok
        ([Judge.mkJob hitNew { epochMs := 1000, tzAware := true }], 1) ∧
      cutoff0.epochMs ≤
        (Judge.mkJob hitNew
          { epochMs := 1000, tzAware := true }).opened.epochMs) ∧
    ((InsightGlobal.scrape_recent_jobs cutoff0 [some { rows := [rowNew] }]).1 =
      [InsightGlobal.mkJob rowNew { epochMs := 1000, tzAware := true }] ∧
      cutoff0.epochMs ≤
        (InsightGlobal.mkJob rowNew
          { epochMs := 1000, tzAware := true }).posted.epochMs) ∧
    ((Yoh.collectRecent isoConst strpConst cutoff0 [yrecNew]).mergeSort
        (Yoh.jobLe isoConst strpConst) = [yrecNew] ∧
      ∃ t, Yoh.parse_timestamp isoConst strpConst yrecNew = some t ∧
        cutoff0.epochMs ≤ t.epochMs) := by
  have hH : Hays.collect_recent_jobs isoConst cutoff0
      [some { opportunities := [oppNew], totalCount := some 1 }] =
      Except.ok
        ([Hays.mkJob oppNew { epochMs := 1000, tzAware := true }], 1) := by
    simp [Hays.collect_recent_jobs, Hays.collectLoop, Hays.filterPage,
      Hays.parse_posted_date, Hays.oldestOnPage, isoConst, cutoff0, oppNew,
      Except.map]
  have hJ : Judge.collect_recent_jobs cutoff0
      [some { hits := [hitNew], total := some 1, size := some 20 }] =
      Except.ok
        ([Judge.mkJob hitNew { epochMs := 1000, tzAware := true }], 1) := by
    simp [Judge.collect_recent_jobs, Judge.collectLoop, Judge.processHits,
      Judge.parse_opened, Judge.lastOpened, Judge.maxPages, cutoff0, hitNew,
      Except.map]
  have hI : (InsightGlobal.scrape_recent_jobs cutoff0
      [some { rows := [rowNew] }]).1 =
      [InsightGlobal.mkJob rowNew { epochMs := 1000, tzAware := true }] := by
    have h50 : InsightGlobal.MAX_PAGES = 49 + 1 := rfl
    have hp : InsightGlobal.parse_posted_date "/Date(1000)/" =
        some { epochMs := 1000, tzAware := true } := by
      simp [InsightGlobal.parse_posted_date]; rfl
    simp [InsightGlobal.scrape_recent_jobs, h50, InsightGlobal.scrapeLoop,
      InsightGlobal.processRows, hp, rowNew, cutoff0]
  have hY : (Yoh.collectRecent isoConst strpConst cutoff0 [yrecNew]).mergeSort
      (Yoh.jobLe isoConst strpConst) = [yrecNew] := by
    simp [Yoh.collectRecent, Yoh.parse_timestamp, isoConst, cutoff0, yrecNew]
  refine ⟨⟨hH, ?_⟩, ⟨hJ, ?_⟩, ⟨hI, ?_⟩, ⟨hY, ?_⟩⟩
  · exact C1_output_at_or_after_cutoff.1 isoConst cutoff0 _ _ _ hH _
      (List.mem_singleton.2 rfl)
  · exact C1_output_at_or_after_cutoff.2.1 cutoff0 _ _ _ hJ _
      (List.mem_singleton.2 rfl)
  · exact C1_output_at_or_after_cutoff.2.2.1 cutoff0 _ _
      (hI ▸ List.mem_singleton.2 rfl)
  · exact C1_output_at_or_after_cutoff.2.2.2 isoConst strpConst cutoff0
      [yrecNew] _ (by rw [hY]; exact List.mem_singleton.2 rfl)

/-- C2: the output sequence of each script — the list both the text writer
and the spreadsheet writer render in order — is sorted by posted timestamp
descending: each posting's timestamp is at least the following one's.  (For
Yoh the comparison is on the resolved timestamps of any two listed records
whose timestamps parse; members always parse by C1.) -/
theorem C2_output_sorted_descending :
    (∀ (iso : String → Option PyDatetime) (cutoff : PyDatetime)
       (pages : List (Option Hays.Page)) (out : List Hays.Job) (n : Nat),
      Hays.collect_recent_jobs iso cutoff pages = Except.ok (out, n) →
      out.Pairwise (fun a b => b.posted.epochMs ≤ a.posted.epochMs)) ∧
    (∀ (cutoff : PyDatetime) (pages : List (Option Judge.Page))
       (out : List Judge.Job) (n : Nat),
      Judge.collect_recent_jobs cutoff pages = Except.ok (out, n) →
      out.Pairwise (fun a b => b.opened.epochMs ≤ a.opened.epochMs)) ∧
    (∀ (cutoff : PyDatetime) (pages : List (Option InsightGlobal.Page)),
      ((InsightGlobal.scrape_recent_jobs cutoff pages).1).Pairwise
        (fun a b => b.posted.epochMs ≤ a.posted.epochMs)) ∧
    (∀ (iso strp : String → Option PyDatetime) (cutoff : PyDatetime)
       (allJobs : List Yoh.JobRec),
      ((Yoh.collectRecent iso strp cutoff allJobs).mergeSort
          (Yoh.jobLe iso strp)).Pairwise
        (fun a b => ∀ ta tb, Yoh.parse_timestamp iso strp a = some ta →
          Yoh.parse_timestamp iso strp b = some tb →
          tb.epochMs ≤ ta.epochMs)) := by
  refine ⟨?_, ?_, ?_, ?_⟩
  · intro iso cutoff pages out n h
    unfold Hays.collect_recent_jobs at h
    cases hLoop : Hays.collectLoop iso cutoff pages 0 none [] with
    | error e => rw [hLoop] at h; exact absurd h (by simp [Except.map])
    | ok p =>
      rw [hLoop] at h
      simp only [Except.map, Except.ok.injEq, Prod.mk.injEq] at h
      rw [← h.1]
      exact pairwise_mergeSort_key (fun j : Hays.Job => j.posted.epochMs) p.1
  · intro cutoff pages out n h
    unfold Judge.collect_recent_jobs at h
    cases hLoop : Judge.collectLoop cutoff pages 0 [] with
    | error e => rw [hLoop] at h; exact absurd h (by simp [Except.map])
    | ok p =>
      rw [hLoop] at h
      simp only [Except.map, Except.ok.injEq, Prod.mk.injEq] at h
      rw [← h.1]
      exact pairwise_mergeSort_key (fun j : Judge.Job => j.opened.epochMs) p.1
  · intro cutoff pages
    unfold InsightGlobal.scrape_recent_jobs
    exact pairwise_mergeSort_key
      (fun j : InsightGlobal.Job => j.posted.epochMs) _
  · intro iso strp cutoff allJobs
    refine (pairwise_mergeSort_key (Yoh.sortKey iso strp) _).imp ?_
    intro a b hk ta tb hta htb
    have ha : Yoh.sortKey iso strp a = ta.epochMs := by
      simp [Yoh.sortKey, hta]
    have hb : Yoh.sortKey iso strp b = tb.epochMs := by
      simp [Yoh.sortKey, htb]
    omega

/-- C2 witness: concrete single-record runs whose outputs are sorted. -/
theorem C2_witness :
    (Hays.collect_recent_jobs isoConst cutoff0
        [some { opportunities := [oppNew], totalCount := some 1 }] =
      Except.ok
        ([Hays.mkJob oppNew { epochMs := 1000, tzAware := true }], 1) ∧
      List.Pairwise
        (fun a b : Hays.Job => b.posted.epochMs ≤ a.posted.epochMs)
        [Hays.mkJob oppNew { epochMs := 1000, tzAware := true }]) ∧
    (Judge.collect_recent_jobs cutoff0
        [some { hits := [hitNew], total := some 1, size := some 20 }] =
      Except.ok
        ([Judge.mkJob hitNew { epochMs := 1000, tzAware := true }], 1) ∧
      List.Pairwise
        (fun a b : Judge.Job => b.opened.epochMs ≤ a.opened.epochMs)
        [Judge.mkJob hitNew { epochMs := 1000, tzAware := true }]) := by
  have hH : Hays.collect_recent_jobs isoConst cutoff0
      [some { opportunities := [oppNew], totalCount := some 1 }] =
      Except.ok
        ([Hays.mkJob oppNew { epochMs := 1000, tzAware := true }], 1) := by
    simp [Hays.collect_recent_jobs, Hays.collectLoop, Hays.filterPage,
      Hays.parse_posted_date, Hays.oldestOnPage, isoConst, cutoff0, oppNew,
      Except.map]
  have hJ : Judge.collect_recent_jobs cutoff0
      [some { hits := [hitNew], total := some 1, size := some 20 }] =
      Except.ok
        ([Judge.mkJob hitNew { epochMs := 1000, tzAware := true }], 1) := by
    simp [Judge.collect_recent_jobs, Judge.collectLoop, Judge.processHits,
      Judge.parse_opened, Judge.lastOpened, Judge.maxPages, cutoff0, hitNew,
      Except.map]
  exact ⟨⟨hH, C2_output_sorted_descending.1 isoConst cutoff0 _ _ _ hH⟩,
    ⟨hJ, C2_output_sorted_descending.2.1 cutoff0 _ _ _ hJ⟩⟩

/-- C3: a run over a single fetched page retains every qualifying record and
only qualifying records: the output size equals the number of records whose
posted timestamp resolves at or after the cutoff.  (For Judge the page must
carry the `opened` field on every hit, else the run crashes; Yoh's single
response plays the role of its one page.) -/
theorem C3_single_page_count :
    (∀ (iso : String → Option PyDatetime) (cutoff : PyDatetime)
       (pg : Hays.Page) (out : List Hays.Job) (n : Nat),
      Hays.collect_recent_jobs iso cutoff [some pg] = Except.ok (out, n) →
      out.length = pg.opportunities.countP (Hays.qualifies iso cutoff)) ∧
    (∀ (cutoff : PyDatetime) (pg : Judge.Page) (out : List Judge.Job)
       (n : Nat), (∀ h ∈ pg.hits, h.opened.isSome) →
      Judge.collect_recent_jobs cutoff [some pg] = Except.ok (out, n) →
      out.length = pg.hits.countP (Judge.qualifies cutoff)) ∧
    (∀ (cutoff : PyDatetime) (pg : InsightGlobal.Page),
      (InsightGlobal.scrape_recent_jobs cutoff [some pg]).1.length =
        pg.rows.countP (InsightGlobal.qualifies cutoff)) ∧
    (∀ (iso strp : String → Option PyDatetime) (cutoff : PyDatetime)
       (allJobs : List Yoh.JobRec),
      (Yoh.collectRecent iso strp cutoff allJobs).length =
        allJobs.countP (Yoh.qualifies iso strp cutoff)) := by
  refine ⟨?_, ?_, ?_, yoh_collectRecent_length⟩
  · intro iso cutoff pg out n h
    unfold Hays.collect_recent_jobs at h
    rw [hays_collectLoop_single] at h
    simp only [Except.map, Except.ok.injEq, Prod.mk.injEq] at h
    rw [← h.1, List.length_mergeSort]
    exact hays_length_filterPage iso cutoff pg.opportunities
  · intro cutoff pg out n hall h
    obtain ⟨l, hok⟩ := judge_processHits_isOk pg.hits hall
    unfold Judge.collect_recent_jobs at h
    rw [judge_collectLoop_single hok] at h
    simp only [Except.map, Except.ok.injEq, Prod.mk.injEq] at h
    rw [← h.1, List.length_mergeSort]
    exact judge_processHits_length pg.hits l hok
  · intro cutoff pg
    unfold InsightGlobal.scrape_recent_jobs
    have h50 : InsightGlobal.MAX_PAGES = 49 + 1 := rfl
    rw [h50, ig_scrapeLoop_single]
    simp only [List.nil_append, List.length_mergeSort]
    exact ig_processRows_length pg.rows

/-- C3 witness: concrete two-record pages with one qualifying record each
give output size one. -/
theorem C3_witness :
    (Hays.collect_recent_jobs isoConst cutoff0
        [some { opportunities := [oppNew, oppBad], totalCount := some 2 }] =
      Except.ok
        ([Hays.mkJob oppNew { epochMs := 1000, tzAware := true }], 1) ∧
      [Hays.mkJob oppNew { epochMs := 1000, tzAware := true }].length =
        List.countP (Hays.qualifies isoConst cutoff0) [oppNew, oppBad]) ∧
    ((∀ h ∈ [hitNew, hitOld], h.opened.isSome) ∧
      Judge.collect_recent_jobs cutoff0
        [some { hits := [hitNew, hitOld], total := some 2, size := some 20 }] =
      Except.ok
        ([Judge.mkJob hitNew { epochMs := 1000, tzAware := true }], 1) ∧
      [Judge.mkJob hitNew { epochMs := 1000, tzAware := true }].length =
        List.countP (Judge.qualifies cutoff0) [hitNew, hitOld]) := by
  have hH : Hays.collect_recent_jobs isoConst cutoff0
      [some { opportunities := [oppNew, oppBad], totalCount := some 2 }] =
      Except.ok
        ([Hays.mkJob oppNew { epochMs := 1000, tzAware := true }], 1) := by
    simp [Hays.collect_recent_jobs, Hays.collectLoop, Hays.filterPage,
      Hays.parse_posted_date, Hays.oldestOnPage, isoConst, cutoff0, oppNew,
      oppBad, Except.map]
  have hall : ∀ h ∈ [hitNew, hitOld], h.opened.isSome := by decide
  have hJ : Judge.collect_recent_jobs cutoff0
      [some { hits := [hitNew, hitOld], total := some 2, size := some 20 }] =
      Except.ok
        ([Judge.mkJob hitNew { epochMs := 1000, tzAware := true }], 1) := by
    simp [Judge.collect_recent_jobs, Judge.collectLoop, Judge.processHits,
      Judge.parse_opened, Judge.lastOpened, Judge.maxPages, cutoff0, hitNew,
      hitOld, Except.map]
  exact ⟨⟨hH, C3_single_page_count.1 isoConst cutoff0 _ _ _ hH⟩,
    ⟨hall, hJ, C3_single_page_count.2.1 cutoff0 _ _ _ hall hJ⟩⟩

/-- C4: in each paginated script, a fetched page that yields zero records,
or whose records are all older than the cutoff, terminates the pagination
loop: the call contributes exactly one fetch (that page's own) and its
result does not depend on any further responses. -/
theorem C4_pagination_stops :
    (∀ (iso : String → Option PyDatetime) (cutoff : PyDatetime)
       (pg : Hays.Page) (rest : List (Option Hays.Page)) (skip : Nat)
       (total : Option Int) (recent : List Hays.Job),
      pg.opportunities = [] →
      Hays.collectLoop iso cutoff (some pg :: rest) skip total recent =
        Except.ok (recent, 1)) ∧
    (∀ (iso : String → Option PyDatetime) (cutoff : PyDatetime)
       (pg : Hays.Page) (rest : List (Option Hays.Page)) (skip : Nat)
       (total : Option Int) (recent : List Hays.Job),
      (∀ o ∈ pg.opportunities, ∃ d,
        Hays.parse_posted_date iso o.postedDate = some d ∧
        d.epochMs < cutoff.epochMs) →
      Hays.collectLoop iso cutoff (some pg :: rest) skip total recent =
        Except.ok (recent, 1)) ∧
    (∀ (cutoff : PyDatetime) (pg : Judge.Page)
       (rest : List (Option Judge.Page)) (page : Nat)
       (recent : List Judge.Job),
      pg.hits = [] →
      Judge.collectLoop cutoff (some pg :: rest) page recent =
        Except.ok (recent, 1)) ∧
    (∀ (cutoff : PyDatetime) (pg : Judge.Page)
       (rest : List (Option Judge.Page)) (page : Nat)
       (recent : List Judge.Job),
      (∀ h ∈ pg.hits, ∃ ms, h.opened = some ms ∧ ms < cutoff.epochMs) →
      Judge.collectLoop cutoff (some pg :: rest) page recent =
        Except.ok (recent, 1)) ∧
    (∀ (cutoff : PyDatetime) (pg : InsightGlobal.Page)
       (rest : List (Option InsightGlobal.Page)) (fuel : Nat)
       (recent : List InsightGlobal.Job),
      pg.rows = [] →
      InsightGlobal.scrapeLoop cutoff (fuel + 1) (some pg :: rest) recent =
        (recent, 1, false)) ∧
    (∀ (cutoff : PyDatetime) (pg : InsightGlobal.Page)
       (rest : List (Option InsightGlobal.Page)) (fuel : Nat)
       (recent : List InsightGlobal.Job),
      (∀ r ∈ pg.rows, ∃ d,
        InsightGlobal.parse_posted_date r.postedDateRaw = some d ∧
        d.epochMs < cutoff.epochMs) →
      InsightGlobal.scrapeLoop cutoff (fuel + 1) (some pg :: rest) recent =
        (recent, 1, false)) := by
  refine ⟨?_, ?_, ?_, ?_, ?_, ?_⟩
  · intro iso cutoff pg rest skip total recent hemp
    rw [Hays.collectLoop]
    simp [hemp]
  · intro iso cutoff pg rest skip total recent hall
    by_cases hemp : pg.opportunities = []
    · rw [Hays.collectLoop]
      simp [hemp]
    · have hb : pg.opportunities.isEmpty = false := by
        simpa [List.isEmpty_iff] using hemp
      obtain ⟨x, xs, hrev⟩ : ∃ x xs, pg.opportunities.reverse = x :: xs := by
        cases hr : pg.opportunities.reverse with
        | nil => exact absurd (by simpa using hr) hemp
        | cons x xs => exact ⟨x, xs, rfl⟩
      have hx : x ∈ pg.opportunities := by
        rw [← List.mem_reverse, hrev]
        simp
      obtain ⟨d, hd, hlt⟩ := hall x hx
      have hold : Hays.oldestOnPage iso pg.opportunities = some d := by
        unfold Hays.oldestOnPage
        rw [hrev, List.findSome?_cons, hd]
      rw [Hays.collectLoop]
      simp [hb, hold, hays_filterPage_all_old hall, hlt]
  · intro cutoff pg rest page recent hemp
    rw [Judge.collectLoop]
    simp [hemp, Judge.processHits]
  · intro cutoff pg rest page recent hall
    by_cases hemp : pg.hits = []
    · rw [Judge.collectLoop]
      simp [hemp, Judge.processHits]
    · have hb : pg.hits.isEmpty = false := by
        simpa [List.isEmpty_iff] using hemp
      obtain ⟨x, hx⟩ := List.getLast?_isSome.2 hemp |> Option.isSome_iff_exists.1
      obtain ⟨ms, hms, hlt⟩ := hall x (List.mem_of_getLast?_eq_some hx)
      have hlast : Judge.lastOpened pg.hits = some ms := by
        simp [Judge.lastOpened, hx, hms]
      rw [Judge.collectLoop]
      simp [hb, judge_processHits_all_old pg.hits hall, hlast,
        Judge.parse_opened, hlt]
  · intro cutoff pg rest fuel recent hemp
    rw [InsightGlobal.scrapeLoop]
    simp [hemp, InsightGlobal.processRows]
  · intro cutoff pg rest fuel recent hall
    by_cases hemp : pg.rows = []
    · rw [InsightGlobal.scrapeLoop]
      simp [hemp, InsightGlobal.processRows]
    · have hb : pg.rows.isEmpty = false := by
        simpa [List.isEmpty_iff] using hemp
      rw [InsightGlobal.scrapeLoop]
      simp [hb, ig_processRows_all_old pg.rows hall]

/-- C4 witness: concrete empty and all-older pages stop each loop after a
single fetch, with a further page pending in the response list. -/
theorem C4_witness :
    (Hays.collectLoop isoConst cutoff0
        (some { opportunities := [], totalCount := none } ::
          [some { opportunities := [oppNew], totalCount := some 1 }])
        0 none [] = Except.ok ([], 1)) ∧
    (Hays.collectLoop isoConst cutoffHigh
        (some { opportunities := [oppNew], totalCount := some 500 } ::
          [some { opportunities := [oppNew], totalCount := some 500 }])
        0 none [] = Except.ok ([], 1)) ∧
    (Judge.collectLoop cutoff0
        (some { hits := [], total := some 0, size := some 20 } ::
          [some { hits := [hitNew], total := some 1, size := some 20 }])
        0 [] = Except.ok ([], 1)) ∧
    (Judge.collectLoop cutoff0
        (some { hits := [hitOld], total := some 500, size := some 20 } ::
          [some { hits := [hitNew], total := some 500, size := some 20 }])
        0 [] = Except.ok ([], 1)) ∧
    (InsightGlobal.scrapeLoop cutoff0 50
        (some { rows := [] } :: [some { rows := [rowNew] }]) [] =
      ([], 1, false)) ∧
    (InsightGlobal.scrapeLoop cutoffHigh 50
        (some { rows := [rowNew] } :: [some { rows := [rowNew] }]) [] =
      ([], 1, false)) := by
  have hpH : Hays.parse_posted_date isoConst oppNew.postedDate =
      some { epochMs := 1000, tzAware := true } := by
    simp [Hays.parse_posted_date, isoConst, oppNew]
  have hpI : InsightGlobal.parse_posted_date rowNew.postedDateRaw =
      some { epochMs := 1000, tzAware := true } := by
    simp [InsightGlobal.parse_posted_date, rowNew]
    rfl
  refine ⟨C4_pagination_stops.1 isoConst cutoff0 _ _ 0 none [] rfl,
    C4_pagination_stops.2.1 isoConst cutoffHigh _ _ 0 none [] ?_,
    C4_pagination_stops.2.2.1 cutoff0 _ _ 0 [] rfl,
    C4_pagination_stops.2.2.2.1 cutoff0 _ _ 0 [] ?_,
    C4_pagination_stops.2.2.2.2.1 cutoff0 _ _ 49 [] rfl,
    C4_pagination_stops.2.2.2.2.2 cutoffHigh _ _ 49 [] ?_⟩
  · intro o ho
    rw [List.mem_singleton] at ho
    subst ho
    exact ⟨{ epochMs := 1000, tzAware := true }, hpH, by decide⟩
  · intro h hm
    rw [List.mem_singleton] at hm
    subst hm
    exact ⟨-5, rfl, by decide⟩
  · intro r hr
    rw [List.mem_singleton] at hr
    subst hr
    exact ⟨{ epochMs := 1000, tzAware := true }, hpI, by decide⟩

/-- C5 counterexample: the Hays pagination loop has no hard page-count
ceiling among its stop conditions — no constant bounds the number of page
fetches across response sequences.  For every `K`, a server that reports
`totalCount = 50·(K+1)` and returns pages of always-new records makes the
loop issue `K+1` fetches. -/
theorem C5_counterexample_hays_no_ceiling :
    ¬ ∃ K : Nat, ∀ (iso : String → Option PyDatetime) (cutoff : PyDatetime)
      (pages : List (Option Hays.Page)) (out : List Hays.Job) (n : Nat),
      Hays.collect_recent_jobs iso cutoff pages = Except.ok (out, n) →
      n ≤ K := by
  rintro ⟨K, hK⟩
  obtain ⟨out, hout⟩ := hays_unbounded_aux ((50 * (K + 1) : Nat) : Int)
    (K + 1) (by omega) 0 none []
    (by simp [Option.getD])
  have hcol : Hays.collect_recent_jobs isoConst cutoff0
      (List.replicate (K + 1)
        (some { opportunities := [oppNew],
                totalCount := some ((50 * (K + 1) : Nat) : Int) })) =
      Except.ok (out.mergeSort Hays.jobLe, K + 1) := by
    unfold Hays.collect_recent_jobs
    rw [hout]
    rfl
  have := hK isoConst cutoff0 _ _ _ hcol
  omega

/-- C5 amended: only the Insight Global script has a hard page-count
ceiling among its stop conditions (`MAX_PAGES = 50`): its loop issues at
most 50 page fetches for every sequence of server responses.  The Hays and
Judge loops have no such ceiling: for every `K` there is a sequence of
server responses (always-new single-record pages with a large reported
total) on which the loop completes after issuing `K + 1` fetches, so no
fixed constant bounds their page-request counts. -/
theorem C5_amended_only_insightglobal_ceiling :
    (∀ (cutoff : PyDatetime) (pages : List (Option InsightGlobal.Page)),
      (InsightGlobal.scrape_recent_jobs cutoff pages).2.1 ≤
        InsightGlobal.MAX_PAGES) ∧
    (∀ K : Nat, ∃ (pages : List (Option Hays.Page)) (out : List Hays.Job),
      Hays.collect_recent_jobs isoConst cutoff0 pages =
        Except.ok (out, K + 1)) ∧
    (∀ K : Nat, ∃ (pages : List (Option Judge.Page)) (out : List Judge.Job),
      Judge.collect_recent_jobs cutoff0 pages = Except.ok (out, K + 1)) := by
  refine ⟨?_, ?_, ?_⟩
  · intro cutoff pages
    exact ig_scrapeLoop_count_le pages InsightGlobal.MAX_PAGES []
  · intro K
    obtain ⟨out, hout⟩ := hays_unbounded_aux ((50 * (K + 1) : Nat) : Int)
      (K + 1) (by omega) 0 none []
      (by simp [Option.getD])
    refine ⟨List.replicate (K + 1)
      (some { opportunities := [oppNew],
              totalCount := some ((50 * (K + 1) : Nat) : Int) }),
      out.mergeSort Hays.jobLe, ?_⟩
    unfold Hays.collect_recent_jobs
    rw [hout]
    rfl
  · intro K
    obtain ⟨out, hout⟩ := judge_unbounded_aux (K + 1) (by omega)
      (K + 1) (by omega) 0 [] (by omega)
    refine ⟨List.replicate (K + 1) (some (judgePageN (K + 1))),
      out.mergeSort Judge.jobLe, ?_⟩
    unfold Judge.collect_recent_jobs
    rw [hout]
    rfl

/-- C6 counterexample: in the Judge script a record whose timestamp cannot
be resolved is not silently dropped — a page with a hit lacking the
`opened` field makes the whole run raise `KeyError` instead of continuing. -/
theorem C6_counterexample_judge_raises :
    Judge.collect_recent_jobs cutoff0
      [some { hits := [hitNoOpened], total := some 1, size := some 20 }] =
      Except.error "KeyError: opened" := by
  simp [Judge.collect_recent_jobs, Judge.collectLoop, Judge.processHits,
    hitNoOpened, Except.map]

/-- C6 amended: in the Hays, Insight Global and Yoh scripts a record whose
posted timestamp cannot be parsed is silently dropped and processing
continues with the remaining records; in the Judge script the `opened`
field is read unguarded, so any hit without it raises an uncaught exception
and aborts the run. -/
theorem C6_amended_unparsable_drop_or_raise :
    (∀ (iso : String → Option PyDatetime) (cutoff : PyDatetime)
       (pre post : List Hays.Opportunity) (bad : Hays.Opportunity),
      Hays.parse_posted_date iso bad.postedDate = none →
      Hays.filterPage iso cutoff (pre ++ bad :: post) =
        Hays.filterPage iso cutoff (pre ++ post)) ∧
    (∀ (cutoff : PyDatetime) (pre post : List InsightGlobal.Row)
       (bad : InsightGlobal.Row),
      InsightGlobal.parse_posted_date bad.postedDateRaw = none →
      InsightGlobal.processRows cutoff (pre ++ bad :: post) =
        InsightGlobal.processRows cutoff (pre ++ post)) ∧
    (∀ (iso strp : String → Option PyDatetime) (cutoff : PyDatetime)
       (pre post : List Yoh.JobRec) (bad : Yoh.JobRec),
      Yoh.parse_timestamp iso strp bad = none →
      Yoh.collectRecent iso strp cutoff (pre ++ bad :: post) =
        Yoh.collectRecent iso strp cutoff (pre ++ post)) ∧
    (∀ (cutoff : PyDatetime) (hits : List Judge.Hit),
      (∃ h ∈ hits, h.opened = none) →
      ∃ e, Judge.processHits cutoff hits = Except.error e) := by
  refine ⟨?_, ?_, ?_, fun cutoff hits => judge_processHits_error hits⟩
  · intro iso cutoff pre post bad h
    simp [Hays.filterPage, List.filterMap_append, List.filterMap_cons, h]
  · intro cutoff pre post bad h
    induction pre with
    | nil =>
      rw [List.nil_append, List.nil_append, InsightGlobal.processRows, h]
    | cons x xs ih =>
      simp only [List.cons_append, InsightGlobal.processRows, List.append_eq]
      rw [ih]
  · intro iso strp cutoff pre post bad h
    simp [Yoh.collectRecent, List.filter_append, List.filter_cons, h]

/-- C6 witness: concrete unparsable records are dropped by Hays, Insight
Global and Yoh, and crash Judge. -/
theorem C6_witness :
    (Hays.parse_posted_date isoConst oppBad.postedDate = none ∧
      Hays.filterPage isoConst cutoff0 ([oppNew] ++ oppBad :: []) =
        Hays.filterPage isoConst cutoff0 ([oppNew] ++ [])) ∧
    (InsightGlobal.parse_posted_date rowBad.postedDateRaw = none ∧
      InsightGlobal.processRows cutoff0 ([rowNew] ++ rowBad :: []) =
        InsightGlobal.processRows cutoff0 ([rowNew] ++ [])) ∧
    (Yoh.parse_timestamp isoNone strpConst yrecBad = none ∧
      Yoh.collectRecent isoNone strpConst cutoff0 ([] ++ yrecBad :: []) =
        Yoh.collectRecent isoNone strpConst cutoff0 ([] ++ [])) ∧
    ((∃ h ∈ [hitNoOpened], h.opened = none) ∧
      ∃ e, Judge.processHits cutoff0 [hitNoOpened] = Except.error e) := by
  have h1 : Hays.parse_posted_date isoConst oppBad.postedDate = none := rfl
  have h2 : InsightGlobal.parse_posted_date rowBad.postedDateRaw = none := rfl
  have h3 : Yoh.parse_timestamp isoNone strpConst yrecBad = none := by
    simp [Yoh.parse_timestamp, yrecBad]
  have h4 : ∃ h ∈ [hitNoOpened], h.opened = none :=
    ⟨hitNoOpened, by simp, rfl⟩
  exact ⟨⟨h1, C6_amended_unparsable_drop_or_raise.1 isoConst cutoff0 _ _ _ h1⟩,
    ⟨h2, C6_amended_unparsable_drop_or_raise.2.1 cutoff0 _ _ _ h2⟩,
    ⟨h3, C6_amended_unparsable_drop_or_raise.2.2.1 isoNone strpConst cutoff0
      _ _ _ h3⟩,
    ⟨h4, C6_amended_unparsable_drop_or_raise.2.2.2 cutoff0 _ h4⟩⟩

/-- C9 counterexample: the Insight Global script does not follow the
`<source>_jobs_last_24h.txt` naming scheme — its text file is named
`jobs_last_24h.txt`, which is not `src ++ "_jobs_last_24h.txt"` for any
source string. -/
theorem C9_counterexample_insightglobal_name :
    ¬ ∃ src : String,
      (InsightGlobal.main strfConst strfConst cutoff0 []).txtPath =
        src ++ "_jobs_last_24h.txt" := by
  rintro ⟨src, h⟩
  have hpath : (InsightGlobal.main strfConst strfConst cutoff0 []).txtPath =
      "jobs_last_24h.txt" := rfl
  rw [hpath] at h
  have hlen := congrArg String.length h
  rw [String.length_append] at hlen
  have h17 : ("jobs_last_24h.txt" : String).length = 17 := rfl
  have h18 : ("_jobs_last_24h.txt" : String).length = 18 := rfl
  rw [h17, h18] at hlen
  omega

/-- C9 amended: on every run that completes (no uncaught network error),
each script writes exactly its text file and its spreadsheet.  Hays, Judge
and Yoh name them `<source>_jobs_last_24h.txt` / `.xlsx` with their source
prefix; the Insight Global script names them `jobs_last_24h.txt` /
`jobs_last_24h.xlsx`, with no source prefix. -/
theorem C9_amended_output_names :
    (∀ (iso : String → Option PyDatetime) (strfT strfX : PyDatetime → String)
       (cutoff : PyDatetime) (pages : List (Option Hays.Page))
       (out : RunOutput),
      Hays.main iso strfT strfX cutoff pages = Except.ok out →
      out.txtPath = "hays_jobs_last_24h.txt" ∧
      out.xlsxPath = "hays_jobs_last_24h.xlsx") ∧
    (∀ (strfT strfX : PyDatetime → String) (cutoff : PyDatetime)
       (pages : List (Option Judge.Page)) (out : RunOutput),
      Judge.main strfT strfX cutoff pages = Except.ok out →
      out.txtPath = "judge_jobs_last_24h.txt" ∧
      out.xlsxPath = "judge_jobs_last_24h.xlsx") ∧
    (∀ (iso strp : String → Option PyDatetime)
       (strfT strfX : PyDatetime → String) (cutoff : PyDatetime)
       (resp : Option (List Yoh.JobRec)) (out : RunOutput),
      Yoh.main iso strp strfT strfX cutoff resp = Except.ok out →
      out.txtPath = "yoh_jobs_last_24h.txt" ∧
      out.xlsxPath = "yoh_jobs_last_24h.xlsx") ∧
    (∀ (strfT strfX : PyDatetime → String) (cutoff : PyDatetime)
       (pages : List (Option InsightGlobal.Page)),
      (InsightGlobal.main strfT strfX cutoff pages).txtPath =
        "jobs_last_24h.txt" ∧
      (InsightGlobal.main strfT strfX cutoff pages).xlsxPath =
        "jobs_last_24h.xlsx") := by
  refine ⟨?_, ?_, ?_, fun _ _ _ _ => ⟨rfl, rfl⟩⟩
  · intro iso strfT strfX cutoff pages out h
    unfold Hays.main at h
    cases hc : Hays.collect_recent_jobs iso cutoff pages with
    | error e => rw [hc] at h; exact absurd h (by simp [Except.map])
    | ok p =>
      rw [hc] at h
      simp only [Except.map, Except.ok.injEq] at h
      rw [← h]
      exact ⟨rfl, rfl⟩
  · intro strfT strfX cutoff pages out h
    unfold Judge.main at h
    cases hc : Judge.collect_recent_jobs cutoff pages with
    | error e => rw [hc] at h; exact absurd h (by simp [Except.map])
    | ok p =>
      rw [hc] at h
      simp only [Except.map, Except.ok.injEq] at h
      rw [← h]
      exact ⟨rfl, rfl⟩
  · intro iso strp strfT strfX cutoff resp out h
    cases resp with
    | none => exact absurd h (by simp [Yoh.main])
    | some allJobs =>
      rw [Yoh.main] at h
      simp only [Except.ok.injEq] at h
      rw [← h]
      exact ⟨rfl, rfl⟩

/-- C9 witness: empty-input runs of Hays, Judge and Yoh complete, and the
claim names their files; Insight Global's names carry no source prefix. -/
theorem C9_witness :
    (∃ out, Hays.main isoConst strfConst strfConst cutoff0 [] =
        Except.ok out ∧
      out.txtPath = "hays_jobs_last_24h.txt" ∧
      out.xlsxPath = "hays_jobs_last_24h.xlsx") ∧
    (∃ out, Judge.main strfConst strfConst cutoff0 [] = Except.ok out ∧
      out.txtPath = "judge_jobs_last_24h.txt" ∧
      out.xlsxPath = "judge_jobs_last_24h.xlsx") ∧
    (∃ out, Yoh.main isoConst strpConst strfConst strfConst cutoff0
        (some []) = Except.ok out ∧
      out.txtPath = "yoh_jobs_last_24h.txt" ∧
      out.xlsxPath = "yoh_jobs_last_24h.xlsx") ∧
    ((InsightGlobal.main strfConst strfConst cutoff0 []).txtPath =
        "jobs_last_24h.txt" ∧
      (InsightGlobal.main strfConst strfConst cutoff0 []).xlsxPath =
        "jobs_last_24h.xlsx") := by
  have hH : Hays.main isoConst strfConst strfConst cutoff0 [] =
      Except.ok
        { txtPath := "hays_jobs_last_24h.txt",
          txtContent := Hays.write_text strfConst [],
          xlsxPath := "hays_jobs_last_24h.xlsx",
          xlsxRows := Hays.excelRows strfConst [] } := by
    simp [Hays.main, Hays.collect_recent_jobs, Hays.collectLoop, Except.map]
  have hJ : Judge.main strfConst strfConst cutoff0 [] =
      Except.ok
        { txtPath := "judge_jobs_last_24h.txt",
          txtContent := Judge.write_text strfConst [],
          xlsxPath := "judge_jobs_last_24h.xlsx",
          xlsxRows := Judge.excelRows strfConst [] } := by
    simp [Judge.main, Judge.collect_recent_jobs, Judge.collectLoop, Except.map]
  have hY : Yoh.main isoConst strpConst strfConst strfConst cutoff0
      (some []) =
      Except.ok
        { txtPath := "yoh_jobs_last_24h.txt",
          txtContent := Yoh.write_text isoConst strpConst strfConst [],
          xlsxPath := "yoh_jobs_last_24h.xlsx",
          xlsxRows := Yoh.excelRows isoConst strpConst strfConst [] } := by
    simp [Yoh.main, Yoh.collectRecent]
  exact ⟨⟨_, hH, C9_amended_output_names.1 isoConst strfConst strfConst
      cutoff0 [] _ hH⟩,
    ⟨_, hJ, C9_amended_output_names.2.1 strfConst strfConst cutoff0 [] _ hJ⟩,
    ⟨_, hY, C9_amended_output_names.2.2.1 isoConst strpConst strfConst
      strfConst cutoff0 (some []) _ hY⟩,
    C9_amended_output_names.2.2.2 strfConst strfConst cutoff0 []⟩

/-- C8: for every script, an empty qualifying set makes the text writer
produce the literal sentinel line "No jobs found in the last 24 hours."
(which is not the empty string), never an empty file. -/
theorem C8_empty_sentinel :
    (∀ strf, Hays.write_text strf [] = sentinel) ∧
    (∀ strf, InsightGlobal.write_output strf [] = sentinel) ∧
    (∀ strf, Judge.write_text strf [] = sentinel) ∧
    (∀ iso strp strf, Yoh.write_text iso strp strf [] = sentinel) ∧
    sentinel ≠ "" := by
  exact ⟨fun _ => rfl, fun _ => rfl, fun _ => rfl, fun _ _ _ => rfl,
    by decide⟩

/-- C10: each script's timestamp parser only ever produces timezone-aware
datetimes (Judge's is only applied to epoch-millisecond integers and is
always aware), whatever the underlying library parsers return, so the
comparison against the aware cutoff never mixes naive and aware values. -/
theorem C10_parsers_timezone_aware :
    (∀ iso raw d, Hays.parse_posted_date iso raw = some d →
      d.tzAware = true) ∧
    (∀ raw d, InsightGlobal.parse_posted_date raw = some d →
      d.tzAware = true) ∧
    (∀ ms, (Judge.parse_opened ms).tzAware = true) ∧
    (∀ iso strp j d, Yoh.parse_timestamp iso strp j = some d →
      d.tzAware = true) := by
  refine ⟨?_, ?_, fun _ => rfl, ?_⟩
  · intro iso raw d h
    unfold Hays.parse_posted_date at h
    match raw with
    | none => exact absurd h (by simp)
    | some s =>
      simp only at h
      split at h
      · exact absurd h (by simp)
      · split at h
        · exact absurd h (by simp)
        · rename_i parsed _
          cases h
          cases hb : parsed.tzAware <;> simp [hb]
  · intro raw d h
    unfold InsightGlobal.parse_posted_date at h
    split at h
    · exact absurd h (by simp)
    · cases h; rfl
  · intro iso strp j d h
    unfold Yoh.parse_timestamp at h
    dsimp only at h
    split at h
    · rename_i d0 hd0
      cases h
      by_cases hts : j.changedOnUTC.getD "" = ""
      · simp [hts] at hd0
      · simp only [hts, if_false] at hd0
        split at hd0
        · exact absurd hd0 (by simp)
        · rename_i parsed _
          cases hd0
          cases hb : parsed.tzAware <;> simp [hb]
    · split at h
      · exact absurd h (by simp)
      · split at h
        · exact absurd h (by simp)
        · cases h; rfl

/-- C10 witness: at concrete inputs, each parser yields an aware result. -/
theorem C10_witness :
    (Hays.parse_posted_date isoConst (some "x") =
      some { epochMs := 1000, tzAware := true } ∧
      PyDatetime.tzAware { epochMs := 1000, tzAware := true } = true) ∧
    (InsightGlobal.parse_posted_date "/Date(1000)/" =
      some { epochMs := 1000, tzAware := true }) ∧
    (Judge.parse_opened 1000).tzAware = true ∧
    (Yoh.parse_timestamp isoNone strpConst
      { yrecBad with postedDate := some "01-01-2024" } =
      some { epochMs := 500, tzAware := true } ∧
      PyDatetime.tzAware { epochMs := 500, tzAware := true } = true) := by
  have h1 : Hays.parse_posted_date isoConst (some "x") =
      some { epochMs := 1000, tzAware := true } := by
    simp [Hays.parse_posted_date, isoConst]
  have h4 : Yoh.parse_timestamp isoNone strpConst
      { yrecBad with postedDate := some "01-01-2024" } =
      some { epochMs := 500, tzAware := true } := by
    simp [Yoh.parse_timestamp, isoNone, strpConst, yrecBad]
  refine ⟨⟨h1, C10_parsers_timezone_aware.1 isoConst (some "x") _ h1⟩,
    ?_, C10_parsers_timezone_aware.2.2.1 1000,
    ⟨h4, C10_parsers_timezone_aware.2.2.2 isoNone strpConst _ _ h4⟩⟩
  · simp [InsightGlobal.parse_posted_date]
    rfl

/-- C7: on a transport-level failure during a page fetch, only the Insight
Global script catches it: its loop stops right there, reports the failure
(last component `true`), keeps the postings already collected, and `main`
still writes both files (shown here for a failure on the first fetch, where
the text file holds the sentinel).  In the Hays, Judge and Yoh scripts the
exception propagates out of the run, so no output is produced. -/
theorem C7_network_failure_behavior :
    (∀ cutoff n rest recent,
      InsightGlobal.scrapeLoop cutoff (n + 1) (none :: rest) recent =
        (recent, 1, true)) ∧
    (∀ strfT strfX cutoff rest,
      InsightGlobal.main strfT strfX cutoff (none :: rest) =
        { txtPath := "jobs_last_24h.txt", txtContent := sentinel,
          xlsxPath := "jobs_last_24h.xlsx",
          xlsxRows := [["Title", "Location", "Job Type", "Posted (UTC)",
            "URL", "Job ID", "Salary Low", "Salary High"]] }) ∧
    (∀ iso cutoff rest skip total recent,
      Hays.collectLoop iso cutoff (none :: rest) skip total recent =
        Except.error "URLError") ∧
    (∀ cutoff rest page recent,
      Judge.collectLoop cutoff (none :: rest) page recent =
        Except.error "URLError") ∧
    (∀ iso strp strfT strfX cutoff,
      Yoh.main iso strp strfT strfX cutoff none = Except.error "URLError") := by
  refine ⟨fun _ _ _ _ => rfl, ?_, fun _ _ _ _ _ _ => rfl, fun _ _ _ _ => rfl,
    fun _ _ _ _ _ => rfl⟩
  intro strfT strfX cutoff rest
  have h50 : InsightGlobal.MAX_PAGES = 49 + 1 := rfl
  simp [InsightGlobal.main, InsightGlobal.scrape_recent_jobs, h50,
    InsightGlobal.scrapeLoop, InsightGlobal.write_output,
    InsightGlobal.excelRows]

end GitOfficeWork
